import Mathlib

/-
  Verification development for the job-creation subsystem of the gnss-ro-data
  reformatting system (rorefcat/src/rorefcat/Utilities/createjobs.py).

  The Python module is shallowly embedded:
  * the storage-listing collaborator (s3fs `ls`, `os.path.isdir`, `os.listdir`)
    is a parameter: `ls : String -> Option (List String)` where `none` models a
    raised exception and `some l` a successful listing in collaborator order;
  * the registry collaborators (`reformatters`, `valid_missions`,
    `get_receiver_satellites`) live outside src/ and are modelled from the spec
    as static lookup tables inside `Env`;
  * Python exceptions are modelled with `Except`; a bare `try/except` around a
    listing call maps `none` to the handler, an unprotected call maps `none`
    to a propagated error;
  * Python local variables that can be read while unbound (`level`,
    `jpl_file_type`, the ROM-SAF `subdirs`, the batch splitter's `out`) are
    threaded as `Option` state, `none` meaning unbound.

  Machine integers do not occur (all counts are small Python ints, i.e.
  arbitrary precision), so Nat is used directly.
-/

/-! ## String and path helpers (os.path / re usage of createjobs.py).
All primitives recurse structurally over `String.data` so that concrete runs
reduce inside the kernel. -/

/-- Char-list prefix test. -/
def isPrefixL : List Char → List Char → Bool
  | [], _ => true
  | _ :: _, [] => false
  | p :: ps, c :: cs => p == c && isPrefixL ps cs

/-- Python `s.startswith(pat)` (and `re.search("^pat", s)` for literal pat). -/
def startsWithS (s pat : String) : Bool :=
  isPrefixL pat.data s.data

/-- Python `s.endswith(pat)`. -/
def endsWithS (s pat : String) : Bool :=
  isPrefixL pat.data.reverse s.data.reverse

/-- Substring occurrence over char lists. -/
def occursIn (pat : List Char) : List Char → Bool
  | [] => pat.isEmpty
  | c :: cs => isPrefixL pat (c :: cs) || occursIn pat cs

/-- Python `pat in s` substring test (used as `"level" not in tail`). -/
def strContains (s pat : String) : Bool :=
  occursIn pat.data s.data

/-- Everything after the first occurrence of `key`; `none` if it never
occurs. -/
def afterFirst (key : List Char) : List Char → Option (List Char)
  | [] => if isPrefixL key [] then some [] else none
  | c :: cs =>
    if isPrefixL key (c :: cs) then some ((c :: cs).drop key.length)
    else afterFirst key cs

/-- Python `s.split(sep)` for a one-char separator, as a char-list loop. -/
def splitCharGo (sep : Char) : List Char → List Char → List (List Char)
  | [], cur => [cur.reverse]
  | c :: cs, cur =>
    if c == sep then cur.reverse :: splitCharGo sep cs []
    else splitCharGo sep cs (c :: cur)

/-- Python `s.split("/")` / `re.split("/", s)`. -/
def splitSlash (s : String) : List String :=
  (splitCharGo '/' s.data []).map String.mk

/-- The `tail` of `os.path.split`: everything after the last "/". -/
def tailOf (s : String) : String :=
  (splitSlash s).getLastD ""

/-- `os.path.join a b` for POSIX paths as used by createjobs.py. -/
def pjoin (a b : String) : String :=
  if startsWithS b "/" then b
  else if a = "" then b
  else if endsWithS a "/" then a ++ b
  else a ++ "/" ++ b

/-- Left-pad the decimal form of `n` to width `w` with `c`. -/
def padNum (c : Char) (w : Nat) (n : Nat) : String :=
  let s := toString n
  String.mk (List.replicate (w - s.length) c) ++ s

/-- Python `f"{n:4d}"`: space-padded to width 4. -/
def year4 (n : Nat) : String := padNum ' ' 4 n

/-- Python `f"{n:02d}"`. -/
def z2 (n : Nat) : String := padNum '0' 2 n

/-- Python `f"{n:03d}"`. -/
def z3 (n : Nat) : String := padNum '0' 3 n

/-- Python `f"{n:04d}"`. -/
def z4 (n : Nat) : String := padNum '0' 4 n

/-- Python `re.search("[._]nc$", s)` as a Bool: `s` ends in ".nc" or "_nc". -/
def endsNc (s : String) : Bool :=
  endsWithS s ".nc" || endsWithS s "_nc"

/-- Python `re.search(root + "/(.*)$", s).group(1)`: the remainder of `s`
after the first occurrence of `root ++ "/"`; `none` models the `AttributeError`
raised by `.group` when the pattern does not occur (the roots used contain no
regex metacharacters beyond "/" and ":"). -/
def searchGroup1 (root s : String) : Option String :=
  (afterFirst (root ++ "/").data s.data).map String.mk

/-! ## Data model -/

/-- One job descriptor, the dictionaries appended to `jobs` by `definejobs`.
`date` holds the "YYYY-MM-DD" string stored by the source
(`date.strftime("%Y-%m-%d")` / `date.isoformat()[:10]`). -/
structure Job where
  file_type : String
  processing_center : String
  mission : String
  date : String
  input_relative_dir : String
  nfiles : Nat
deriving DecidableEq, Repr

/-- The dictionary returned by `definejobs`: the per-center root map (values
may be Python `None` when a center's root was never resolved) and the job
list, in crawl order. -/
structure JobDefinitions where
  prefixes : List (String × Option String)
  jobs : List Job
deriving DecidableEq, Repr

/-- One calendar day of the scanned date range, with the fields the source
derives from `datetime` (`year`, `month`, `day` and `doy`, the day of year
computed at line 145). The calendar arithmetic of the `while date <= ...`
driver is external to the claims; the model takes the day sequence as given. -/
structure DateRec where
  year : Nat
  month : Nat
  day : Nat
  doy : Nat
deriving DecidableEq, Repr

/-- "YYYY-MM-DD" as produced by `date.strftime("%Y-%m-%d")` and
`date.isoformat()[:10]` (years of the archives are four-digit). -/
def dateISO (d : DateRec) : String :=
  z4 d.year ++ "-" ++ z2 d.month ++ "-" ++ z2 d.day

/-- Modelled from the spec: one entry of the `reformatters` registry (module
`..Reformatters`, not under src/). `keys` is the key list of the center's
dictionary (file types and bucket keys); `archiveBucket` / `liveupdateBucket`
are the values at those keys, the only values createjobs.py reads. -/
structure CenterReg where
  keys : List String
  archiveBucket : String
  liveupdateBucket : String

/-- Modelled from the spec: the static registries (`reformatters`,
`valid_missions['aws']`, the per-center mission aliases computed by
`sorted(list({sat[center]['mission'] for sat in get_receiver_satellites(...)}))`),
plus the storage listing collaborators. -/
structure Env where
  reformatters : List (String × CenterReg)
  valid_missions_aws : List String
  ucarMissionsOf : String → List String
  romsafMissionsOf : String → List String
  eumetsatMissionsOf : String → List String
  ls : String → Option (List String)
  isdir : String → Bool
  listdir : String → List String

/-- The explicit arguments of `definejobs` (the four root overrides are the
`UCARprefix` ... `EUMETSATprefix` keyword arguments of the source). -/
structure DJArgs where
  missions : List String
  processing_centers : List String
  file_types : List String
  UCARroot : Option String
  ROMSAFroot : Option String
  JPLroot : Option String
  EUMETSATroot : Option String
  nonnominal : Bool
  liveupdate : Bool

/-- Python exceptions that can escape `definejobs` / the iterator internals. -/
inductive PyExc
  | lsRaised
  | indexError
  | unboundLocal
  | attributeError
  | keyError
deriving DecidableEq, Repr

/-- The mutable local state threaded through `definejobs`' nested loops: the
four root variables (rebindable parameters), the function-local variables
`level`, `jpl_file_type` and the ROM-SAF `subdirs` (which leak across loop
iterations in Python), and the accumulating `jobs` list. -/
structure DJState where
  UCARroot : Option String
  ROMSAFroot : Option String
  JPLroot : Option String
  EUMETSATroot : Option String
  levelVar : Option String
  jplTypeVar : Option String
  romsafSubdirsVar : Option (List String)
  jobs : List Job
deriving Repr

/-- `jobs.append(job)`. -/
def pushJob (st : DJState) (j : Job) : DJState :=
  { st with jobs := st.jobs ++ [j] }

/-! ## UCAR branch of definejobs (createjobs.py lines 149-241) -/

/-- The `type_subdirs` accumulation loop for `file_type == "level2b"`
(lines 208-215): a `wetPf2`-tailed entry is always appended; a `wetPrf`-tailed
entry is appended only while the accumulator is still empty. -/
def ucar_l2b_go : List String → List String → List String
  | [], acc => acc
  | s :: rest, acc =>
    if startsWithS (tailOf s) "wetPf2" then ucar_l2b_go rest (acc ++ [s])
    else if startsWithS (tailOf s) "wetPrf" && acc.isEmpty then ucar_l2b_go rest (acc ++ [s])
    else ucar_l2b_go rest acc

/-- The level2b subdirectory selection, started with an empty `type_subdirs`. -/
def ucar_l2b_select (subdirs : List String) : List String :=
  ucar_l2b_go subdirs []

/-- The whole `type_subdirs` computation of the UCAR branch (lines 194-215),
for all three file types; an unrecognized file type leaves the initial empty
list. -/
def ucar_type_subdirs (file_type : String) (subdirs : List String) : List String :=
  if file_type = "level1b" then
    subdirs.filter (fun s => startsWithS (tailOf s) "atmPhs" || startsWithS (tailOf s) "conPhs")
  else if file_type = "level2a" then
    subdirs.filter (fun s => startsWithS (tailOf s) "atmPrf")
  else if file_type = "level2b" then
    ucar_l2b_select subdirs
  else []

/-- Lines 217-241: after the day listing `subdirs` is obtained. `.ok none`
is Python `continue` (selection not a singleton, or the file listing of the
selected directory raised inside its `try`); `.ok (some job)` is the appended
job followed by `break`. The `m.group(1)` on a failed search raises. -/
def ucar_after_subdirs (env : Env) (root file_type : String) (d : DateRec) (m : String)
    (subdirs : List String) : Except PyExc (Option Job) :=
  let tsubs := ucar_type_subdirs file_type subdirs
  if tsubs.length ≠ 1 then .ok none
  else
    match searchGroup1 (root.drop 5) (tsubs.headD "") with
    | none => .error .attributeError
    | some path =>
      match env.ls (tsubs.headD "") with
      | none => .ok none
      | some filepaths =>
        .ok (some { file_type := file_type, processing_center := "ucar", mission := m,
                    date := dateISO d, input_relative_dir := path, nfiles := filepaths.length })

/-- Lines 179-241, the loop over `processingVersions`. The listing at line 181
and the `subdir_list[0]` access are unprotected; at line 184 a read of an
unbound `level` propagates, while at line 187 it happens inside the bare
`try` and is caught (`continue`). A found job stops the loop (`break`). -/
def ucar_pv_loop (env : Env) (root file_type : String) (d : DateRec) (m : String) :
    List String → DJState → Except PyExc DJState
  | [], st => .ok st
  | pv :: rest, st =>
    match env.ls pv with
    | none => .error .lsRaised
    | some subdir_list =>
      match subdir_list with
      | [] => .error .indexError
      | first :: _ =>
        if ¬ (strContains (tailOf first) "level" = true) then
          match st.levelVar with
          | none => .error .unboundLocal
          | some lv =>
            match env.ls (pjoin (pjoin (pjoin (pjoin pv (tailOf first)) lv)
                (year4 d.year)) (z3 d.doy)) with
            | none => .error .lsRaised
            | some subdirs =>
              match ucar_after_subdirs env root file_type d m subdirs with
              | .error e => .error e
              | .ok none => ucar_pv_loop env root file_type d m rest st
              | .ok (some j) => .ok (pushJob st j)
        else
          match st.levelVar with
          | none => ucar_pv_loop env root file_type d m rest st
          | some lv =>
            match env.ls (pjoin (pjoin (pjoin pv lv) (year4 d.year)) (z3 d.doy)) with
            | none => ucar_pv_loop env root file_type d m rest st
            | some subdirs =>
              match ucar_after_subdirs env root file_type d m subdirs with
              | .error e => .error e
              | .ok none => ucar_pv_loop env root file_type d m rest st
              | .ok (some j) => .ok (pushJob st j)

/-- Lines 170-241, the loop over the UCAR mission aliases; a failed listing of
the alias directory is caught at line 175 (`continue`). -/
def ucar_um_loop (env : Env) (root file_type : String) (d : DateRec) (m : String) :
    List String → DJState → Except PyExc DJState
  | [], st => .ok st
  | um :: ums, st =>
    match env.ls (pjoin root um) with
    | none => ucar_um_loop env root file_type d m ums st
    | some pvs =>
      match ucar_pv_loop env root file_type d m pvs st with
      | .error e => .error e
      | .ok st1 => ucar_um_loop env root file_type d m ums st1

/-- Lines 157-241, the loop over the requested file types; `level` is rebound
only for the three known file types (lines 159-162) and otherwise keeps its
previous (possibly unbound) value. -/
def ucar_ft_loop (env : Env) (root : String) (d : DateRec) (m : String) :
    List String → DJState → Except PyExc DJState
  | [], st => .ok st
  | ft :: fts, st =>
    let st1 := { st with levelVar :=
      if ft = "level1b" then some "level1b"
      else if ft = "level2a" ∨ ft = "level2b" then some "level2"
      else st.levelVar }
    match ucar_um_loop env root ft d m (env.ucarMissionsOf m) st1 with
    | .error e => .error e
    | .ok st2 => ucar_ft_loop env root d m fts st2

/-- Lines 149-241: the UCAR branch for one (date, mission); resolves the UCAR
root the first time it is needed (lines 151-155). -/
def ucar_branch (env : Env) (args : DJArgs) (d : DateRec) (m : String) (st : DJState) :
    Except PyExc DJState :=
  if args.processing_centers.contains "ucar" && env.valid_missions_aws.contains m then
    match st.UCARroot with
    | some root => ucar_ft_loop env root d m args.file_types st
    | none =>
      match env.reformatters.lookup "ucar" with
      | none => .error .keyError
      | some cr =>
        let root := if args.liveupdate then "s3://" ++ cr.liveupdateBucket ++ "/untarred"
                    else "s3://" ++ cr.archiveBucket
        ucar_ft_loop env root d m args.file_types { st with UCARroot := some root }
  else .ok st

/-! ## ROM-SAF branch of definejobs (createjobs.py lines 244-355) -/

/-- Lines 326-355, the non-nominal scan. Note line 331 builds the search
pattern from the FULL ROM-SAF root (with its "s3://"), not `root[5:]`, so on
the default roots the search fails and `.group(1)` raises. A failed listing is
caught (`continue`, which here just ends the iteration body). -/
def romsaf_nonnom (env : Env) (root ft : String) (d : DateRec) (m : String)
    (fullpath : String) (st : DJState) : Except PyExc DJState :=
  let fullpath2 := pjoin fullpath "non-nominal"
  match searchGroup1 root fullpath2 with
  | none => .error .attributeError
  | some path2 =>
    match env.ls fullpath2 with
    | none => .ok st
    | some paths2 =>
      let fps := paths2.filter endsNc
      if fps.length > 0 then
        .ok (pushJob st { file_type := ft, processing_center := "romsaf", mission := m,
                          date := dateISO d, input_relative_dir := path2, nfiles := fps.length })
      else .ok st

/-- Lines 275-355, the loop over the requested file types. The `subdirs` read
at line 287 is unprotected (the variable can be unbound or stale, see
`romsaf_rm_loop`); a job is appended only when the ".nc" filter leaves a
positive count (line 314). -/
def romsaf_ft_loop (env : Env) (root : String) (d : DateRec) (m : String) (nonnominal : Bool) :
    List String → DJState → Except PyExc DJState
  | [], st => .ok st
  | ft :: fts, st =>
    match (if ft = "level2a" then some ("atm_" ++ year4 d.year ++ z2 d.month ++ z2 d.day)
           else if ft = "level2b" then some ("wet_" ++ year4 d.year ++ z2 d.month ++ z2 d.day)
           else none) with
    | none => romsaf_ft_loop env root d m nonnominal fts st
    | some pat =>
      match st.romsafSubdirsVar with
      | none => .error .unboundLocal
      | some subdirs =>
        let tsubs := subdirs.filter (fun s => startsWithS (tailOf s) pat)
        if tsubs.length ≠ 1 then romsaf_ft_loop env root d m nonnominal fts st
        else
          let fullpath := pjoin (tsubs.headD "")
            (year4 d.year ++ "-" ++ z2 d.month ++ "-" ++ z2 d.day)
          match searchGroup1 (root.drop 5) fullpath with
          | none => .error .attributeError
          | some path =>
            match env.ls fullpath with
            | none => romsaf_ft_loop env root d m nonnominal fts st
            | some paths =>
              let fps := paths.filter endsNc
              let st1 :=
                if fps.length > 0 then
                  pushJob st { file_type := ft, processing_center := "romsaf", mission := m,
                               date := dateISO d, input_relative_dir := path, nfiles := fps.length }
                else st
              if nonnominal then
                match romsaf_nonnom env root ft d m fullpath st1 with
                | .error e => .error e
                | .ok st2 => romsaf_ft_loop env root d m nonnominal fts st2
              else romsaf_ft_loop env root d m nonnominal fts st1

/-- Lines 257-355, the loop over ROM-SAF mission aliases. The year listing at
lines 259-273 is caught on failure but its handler does NOT `continue`: the
`subdirs` variable then keeps its previous value (or stays unbound). -/
def romsaf_rm_loop (env : Env) (root : String) (liveupdate nonnominal : Bool) (d : DateRec)
    (m : String) (fts : List String) : List String → DJState → Except PyExc DJState
  | [], st => .ok st
  | rm :: rms, st =>
    let q := if liveupdate then pjoin (pjoin root rm) (year4 d.year)
             else pjoin (pjoin (pjoin (pjoin root "romsaf") "download") rm) (year4 d.year)
    let st1 := match env.ls q with
               | some l => { st with romsafSubdirsVar := some l }
               | none => st
    match romsaf_ft_loop env root d m nonnominal fts st1 with
    | .error e => .error e
    | .ok st2 => romsaf_rm_loop env root liveupdate nonnominal d m fts rms st2

/-- Lines 244-355: the ROM-SAF branch for one (date, mission). -/
def romsaf_branch (env : Env) (args : DJArgs) (d : DateRec) (m : String) (st : DJState) :
    Except PyExc DJState :=
  if args.processing_centers.contains "romsaf" && env.valid_missions_aws.contains m then
    match st.ROMSAFroot with
    | some root =>
      romsaf_rm_loop env root args.liveupdate args.nonnominal d m args.file_types
        (env.romsafMissionsOf m) st
    | none =>
      match env.reformatters.lookup "romsaf" with
      | none => .error .keyError
      | some cr =>
        let root := if args.liveupdate then "s3://" ++ cr.liveupdateBucket ++ "/untarred"
                    else "s3://" ++ cr.archiveBucket
        romsaf_rm_loop env root args.liveupdate args.nonnominal d m args.file_types
          (env.romsafMissionsOf m) { st with ROMSAFroot := some root }
  else .ok st

/-! ## JPL branch of definejobs (createjobs.py lines 357-417) -/

/-- Lines 367-417, the loop over the requested file types. `jpl_file_type` is
rebound only for the three known file types and otherwise keeps its previous
(possibly unbound) value (lines 369-377); the job records the JPL-native
`jpl_file_type`, not the AWS name (line 410). A job is appended only when the
".nc" filter leaves a positive count (line 398). -/
def jpl_ft_loop (env : Env) (root : String) (d : DateRec) (m : String) :
    List String → DJState → Except PyExc DJState
  | [], st => .ok st
  | ft :: fts, st =>
    let jt? :=
      if ft = "level1b" then some "calibratedPhase"
      else if ft = "level2a" then some "refractivityRetrieval"
      else if ft = "level2b" then some "atmosphericRetrieval"
      else st.jplTypeVar
    let st1 := { st with jplTypeVar := jt? }
    match jt? with
    | none => .error .unboundLocal
    | some jft =>
      let path := String.intercalate "/"
        [root, m, jft, year4 d.year ++ "/" ++ z2 d.month ++ "/" ++ z2 d.day]
      match (if startsWithS root "s3://" then env.ls path
             else if env.isdir path then some (env.listdir path) else none) with
      | none => jpl_ft_loop env root d m fts st1
      | some files =>
        let ncs := files.filter endsNc
        if ncs.length > 0 then
          let psplit := if startsWithS root "s3://" then splitSlash (path.drop 5)
                        else splitSlash path
          let rsplit := if startsWithS root "s3://" then splitSlash (root.drop 5)
                        else splitSlash root
          let ird := String.intercalate "/" (psplit.drop rsplit.length)
          jpl_ft_loop env root d m fts
            (pushJob st1 { file_type := jft, processing_center := "jpl", mission := m,
                           date := dateISO d, input_relative_dir := ird, nfiles := ncs.length })
        else jpl_ft_loop env root d m fts st1

/-- Lines 357-417: the JPL branch for one (date, mission). In liveupdate mode
with no JPL root the `break` at line 362 aborts the whole mission loop for
this date (second component `true`). -/
def jpl_branch (env : Env) (args : DJArgs) (d : DateRec) (m : String) (st : DJState) :
    Except PyExc (DJState × Bool) :=
  if args.processing_centers.contains "jpl" && env.valid_missions_aws.contains m then
    match st.JPLroot with
    | some root =>
      match jpl_ft_loop env root d m args.file_types st with
      | .error e => .error e
      | .ok st1 => .ok (st1, false)
    | none =>
      if args.liveupdate then .ok (st, true)
      else
        match env.reformatters.lookup "jpl" with
        | none => .error .keyError
        | some cr =>
          match jpl_ft_loop env ("s3://" ++ cr.archiveBucket) d m args.file_types
              { st with JPLroot := some ("s3://" ++ cr.archiveBucket) } with
          | .error e => .error e
          | .ok st1 => .ok (st1, false)
  else .ok (st, false)

/-! ## EUMETSAT branch of definejobs (createjobs.py lines 419-487) -/

/-- Lines 449-487, the loop over processing versions. Every subdirectory of
the day listing is kept (lines 460-463), so a job arises only when the day
listing is a singleton; the job is appended with no `break` (lines 481-487).
The `level` read at line 451 sits inside the bare `try`, so an unbound read
is caught (`continue`). -/
def eumetsat_pv_loop (env : Env) (root ft : String) (d : DateRec) (m : String) :
    List String → DJState → Except PyExc DJState
  | [], st => .ok st
  | pv :: pvs, st =>
    match st.levelVar with
    | none => eumetsat_pv_loop env root ft d m pvs st
    | some lv =>
      match env.ls (pjoin (pjoin (pjoin pv lv) (year4 d.year)) (z3 d.doy)) with
      | none => eumetsat_pv_loop env root ft d m pvs st
      | some subdirs =>
        if subdirs.length ≠ 1 then eumetsat_pv_loop env root ft d m pvs st
        else
          match searchGroup1 (root.drop 5) (subdirs.headD "") with
          | none => .error .attributeError
          | some path =>
            match env.ls (subdirs.headD "") with
            | none => eumetsat_pv_loop env root ft d m pvs st
            | some filepaths =>
              eumetsat_pv_loop env root ft d m pvs
                (pushJob st { file_type := ft, processing_center := "eumetsat", mission := m,
                              date := dateISO d, input_relative_dir := path,
                              nfiles := filepaths.length })

/-- Lines 441-487, the loop over EUMETSAT mission aliases (failed alias
listing is caught, `continue`). -/
def eumetsat_em_loop (env : Env) (root ft : String) (d : DateRec) (m : String) :
    List String → DJState → Except PyExc DJState
  | [], st => .ok st
  | em :: ems, st =>
    match env.ls (pjoin root em) with
    | none => eumetsat_em_loop env root ft d m ems st
    | some pvs =>
      match eumetsat_pv_loop env root ft d m pvs st with
      | .error e => .error e
      | .ok st1 => eumetsat_em_loop env root ft d m ems st1

/-- Lines 428-487, the loop over requested file types: anything other than
"level1b" logs and `break`s out of the file-type loop (lines 430-434). -/
def eumetsat_ft_loop (env : Env) (root : String) (d : DateRec) (m : String) :
    List String → DJState → Except PyExc DJState
  | [], st => .ok st
  | ft :: fts, st =>
    if ft = "level1b" then
      match eumetsat_em_loop env root ft d m (env.eumetsatMissionsOf m)
          { st with levelVar := some "level1b" } with
      | .error e => .error e
      | .ok st2 => eumetsat_ft_loop env root d m fts st2
    else .ok st

/-- Lines 419-487: the EUMETSAT branch for one (date, mission). Without
liveupdate and with no override root, the `break` at line 426 aborts the
whole mission loop for this date (second component `true`). -/
def eumetsat_branch (env : Env) (args : DJArgs) (d : DateRec) (m : String) (st : DJState) :
    Except PyExc (DJState × Bool) :=
  if args.processing_centers.contains "eumetsat" && env.valid_missions_aws.contains m then
    match st.EUMETSATroot with
    | some root =>
      match eumetsat_ft_loop env root d m args.file_types st with
      | .error e => .error e
      | .ok st1 => .ok (st1, false)
    | none =>
      if args.liveupdate then
        match env.reformatters.lookup "eumetsat" with
        | none => .error .keyError
        | some cr =>
          match eumetsat_ft_loop env ("s3://" ++ cr.liveupdateBucket ++ "/untarred") d m
              args.file_types
              { st with EUMETSATroot := some ("s3://" ++ cr.liveupdateBucket ++ "/untarred") } with
          | .error e => .error e
          | .ok st1 => .ok (st1, false)
      else .ok (st, true)
  else .ok (st, false)

/-! ## definejobs driver (createjobs.py lines 49-510) -/

/-- The body of `for mission in missions:` for one date: the four center
branches in source order; a `true` from the JPL or EUMETSAT branch is the
`break` that ends the mission loop for this date. -/
def mission_body (env : Env) (args : DJArgs) (d : DateRec) (m : String) (st : DJState) :
    Except PyExc (DJState × Bool) :=
  match ucar_branch env args d m st with
  | .error e => .error e
  | .ok st1 =>
    match romsaf_branch env args d m st1 with
    | .error e => .error e
    | .ok st2 =>
      match jpl_branch env args d m st2 with
      | .error e => .error e
      | .ok (st3, b) =>
        if b then .ok (st3, true)
        else eumetsat_branch env args d m st3

/-- Lines 147-487: the mission loop of one date. -/
def mission_loop (env : Env) (args : DJArgs) (d : DateRec) :
    List String → DJState → Except PyExc DJState
  | [], st => .ok st
  | m :: ms, st =>
    match mission_body env args d m st with
    | .error e => .error e
    | .ok (st1, b) => if b then .ok st1 else mission_loop env args d ms st1

/-- Lines 140-491: the day loop over the inclusive date range (the model
takes the day sequence, see `DateRec`). -/
def date_loop (env : Env) (args : DJArgs) : List DateRec → DJState → Except PyExc DJState
  | [], st => .ok st
  | d :: ds, st =>
    match mission_loop env args d args.missions st with
    | .error e => .error e
    | .ok st1 => date_loop env args ds st1

/-- The result of `definejobs`: either the sentinel `1` returned on a failed
validation (lines 101-118) or the job-definitions dictionary (line 510). -/
inductive DJResult
  | sentinel
  | defs (d : JobDefinitions)
deriving DecidableEq, Repr

/-- createjobs.py lines 49-510: `definejobs`. Validation first (each requested
center must be a `reformatters` key, each file type a key of some center's
dictionary, each mission in `valid_missions['aws']`), then the crawl, then the
per-center root map in the fixed order ucar, romsaf, jpl, eumetsat
(lines 495-506). The unused `version` argument is omitted. -/
def definejobs (env : Env) (dates : List DateRec) (args : DJArgs) : Except PyExc DJResult :=
  if ¬ (args.processing_centers.all (fun c => (env.reformatters.map Prod.fst).contains c)) then
    .ok .sentinel
  else if ¬ (args.file_types.all (fun f =>
      ((env.reformatters.map (fun p => p.2.keys)).flatten).contains f)) then
    .ok .sentinel
  else if ¬ (args.missions.all (fun m => env.valid_missions_aws.contains m)) then
    .ok .sentinel
  else
    match date_loop env args dates
        ⟨args.UCARroot, args.ROMSAFroot, args.JPLroot, args.EUMETSATroot, none, none, none, []⟩ with
    | .error e => .error e
    | .ok st =>
      .ok (.defs
        { prefixes :=
            (if args.processing_centers.contains "ucar" then [("ucar", st.UCARroot)] else []) ++
            (if args.processing_centers.contains "romsaf" then [("romsaf", st.ROMSAFroot)] else []) ++
            (if args.processing_centers.contains "jpl" then [("jpl", st.JPLroot)] else []) ++
            (if args.processing_centers.contains "eumetsat" then [("eumetsat", st.EUMETSATroot)] else []),
          jobs := st.jobs })

/-! ## Job File Iterator: DASKjobs (createjobs.py lines 553-674) -/

/-- The 4-tuple yielded by each `__next__` (line 668). -/
structure RefTuple where
  file_type : String
  processing_center : String
  input_root_path : String
  input_relative_path : String
deriving DecidableEq, Repr

/-- Exceptions of the iterator: `StopIteration` (line 641), `IndexError` on an
empty-list index/pop, `KeyError` on a missing center in `self.prefixes`, and a
propagated listing failure in `loadfiles` (line 617, unprotected). -/
inductive DErr
  | stopIteration
  | indexError
  | keyError
  | lsRaised
  | noJobs
deriving DecidableEq, Repr

/-- The iterator state: `self.prefixes` (center to root, as strings),
`self.jobs` and `self.inputfiles`. -/
structure DState where
  prefixes : List (String × String)
  jobs : List Job
  inputfiles : List String
deriving DecidableEq, Repr

/-- Lines 610-629, `DASKjobs.loadfiles`: join the center root with the job's
relative directory, list it (unprotected), and keep the ".nc"-suffixed files.
(The source repeats the same filter twice at lines 619-622, a no-op; an empty
result is only logged, the `raise` at line 627 being commented out.) -/
def DASKloadfiles (ls : String → Option (List String)) (pfx : List (String × String))
    (job : Job) : Except DErr (List String) :=
  match pfx.lookup job.processing_center with
  | none => .error .keyError
  | some root =>
    match ls (pjoin root job.input_relative_dir) with
    | none => .error .lsRaised
    | some files => .ok (files.filter endsNc)

/-- `input_relative_path` computed at lines 662-664: the path split on "/"
with the first `len(input_root_path[5:].split("/"))` components removed
(`os.path.sep` is "/"). -/
def relPathOf (root f : String) : String :=
  String.intercalate "/" ((splitSlash f).drop (splitSlash (root.drop 5)).length)

/-- Lines 647-674 of `__next__`: the part after the (possible) advance to the
next job. `jobs[0]` on an empty list and `inputfiles[0]` on an empty buffer
raise IndexError; the prefix lookup can raise KeyError; otherwise the tuple is
returned and the first buffered file is popped. -/
def DASKnextCore (st : DState) : Except DErr (RefTuple × DState) :=
  match st.jobs with
  | [] => .error .indexError
  | job :: _ =>
    match st.prefixes.lookup job.processing_center with
    | none => .error .keyError
    | some root =>
      match st.inputfiles with
      | [] => .error .indexError
      | f :: fs =>
        .ok (⟨job.file_type, job.processing_center, root, relPathOf root f⟩,
             { st with inputfiles := fs })

/-- Lines 631-674, `DASKjobs.__next__`: when the buffer is empty the current
job is popped (IndexError on an empty job list), `StopIteration` is raised if
no jobs remain, otherwise the next job's files are loaded; then the common
part runs. The emptiness test is a single `if`, not re-checked after the
reload. -/
def DASKnext (ls : String → Option (List String)) (st : DState) :
    Except DErr (RefTuple × DState) :=
  if st.inputfiles = [] then
    match st.jobs with
    | [] => .error .indexError
    | _ :: rest =>
      match rest with
      | [] => .error .stopIteration
      | j2 :: _ =>
        match DASKloadfiles ls st.prefixes j2 with
        | .error e => .error e
        | .ok files => DASKnextCore { st with jobs := rest, inputfiles := files }
  else DASKnextCore st

/-- Lines 602-604 of `DASKjobs.__init__`: the state set up after validation
(the shape validation of the raw JSON value is modelled separately on `PyVal`
by `DASKjobs_validate`); the first job's file list is loaded eagerly. An
empty job list would have been rejected by validation (`noJobs`). -/
def DASKjobs_init (ls : String → Option (List String)) (pfx : List (String × String))
    (jobs : List Job) : Except DErr DState :=
  match jobs with
  | [] => .error .noJobs
  | j :: _ =>
    match DASKloadfiles ls pfx j with
    | .error e => .error e
    | .ok files => .ok ⟨pfx, jobs, files⟩

/-- `DASKnext` shrinks the lexicographic measure (jobs, then buffer). -/
theorem DASKnextCore_state (st : DState) (t : RefTuple) (st' : DState)
    (h : DASKnextCore st = .ok (t, st')) :
    st'.jobs = st.jobs ∧ st'.inputfiles.length < st.inputfiles.length := by
  unfold DASKnextCore at h
  split at h
  · exact absurd h (by simp)
  · split at h
    · exact absurd h (by simp)
    · split at h
      · exact absurd h (by simp)
      · rename_i f fs hfiles
        simp only [Except.ok.injEq, Prod.mk.injEq] at h
        obtain ⟨-, h2⟩ := h
        subst h2
        simp [hfiles]

/-- Full iteration of the iterator: the list of yielded tuples, ended by the
exception that terminates the `for` loop (normally `StopIteration`). -/
def runDASK (ls : String → Option (List String)) (st : DState) : List RefTuple × DErr :=
  match h : DASKnext ls st with
  | .error e => ([], e)
  | .ok (t, st') =>
    let p := runDASK ls st'
    (t :: p.1, p.2)
termination_by (st.jobs.length, st.inputfiles.length)
decreasing_by
  unfold DASKnext at h
  split at h
  · split at h
    · exact absurd h (by simp)
    · split at h
      · exact absurd h (by simp)
      · split at h
        · exact absurd h (by simp)
        · have hc := DASKnextCore_state _ _ _ h
          apply Prod.Lex.left
          rw [hc.1]
          simp_all
          try omega
  · have hc := DASKnextCore_state _ _ _ h
    rw [hc.1]
    exact Prod.Lex.right _ hc.2

/-! ## Batch Splitter: define_batchprocess_jobs (createjobs.py lines 679-752) -/

/-- The `out` structure written by `writeOutputJSONfile`: JSON keys
"InputPrefix", "ProcessingCenter", "InputFiles" (line 730). -/
structure Manifest where
  inputRoot : String
  center : String
  inputFiles : List String
deriving DecidableEq, Repr

/-- The loop state of `define_batchprocess_jobs`: `njobs`, `nfiles`, the two
`last_*` trackers, the possibly-unbound `out`, and the sequence of
(filename, manifest) pairs handed to `writeOutputJSONfile` so far. -/
structure SplitAcc where
  njobs : Nat
  nfilesW : Nat
  lastRoot : Option String
  lastCenter : Option String
  out : Option Manifest
  written : List (String × Manifest)
deriving DecidableEq, Repr

/-- How a run of the splitter ends: normal completion; the early `return` on a
root or center mismatch (lines 712-722); the `UnboundLocalError` at line 747
when `out` was never bound; or Python's `ZeroDivisionError` from
`njobs % jobsperfile` when `jobsperfile = 0`. -/
inductive SplitStatus
  | completed
  | mismatchRoot
  | mismatchCenter
  | unboundLocal
  | zeroDiv
deriving DecidableEq, Repr

/-- A finished run: everything written (flushed manifests are durable side
effects, never rolled back) plus the way the run ended. -/
structure SplitOutcome where
  written : List (String × Manifest)
  status : SplitStatus
deriving DecidableEq, Repr

/-- Lines 708-745, one iteration of the `for` loop: the two mismatch checks
(root first, then center) cause an early return; a new `out` is started when
`njobs % jobsperfile == 0`; the relative path is appended; `njobs` is
incremented; when the new count is again divisible the manifest is written
with filename `template.format(nfiles)` after `nfiles += 1` — and `out` is
NOT cleared. -/
def splitterStep (template : Nat → String) (k : Nat) (acc : SplitAcc) (t : RefTuple) :
    Except SplitOutcome SplitAcc :=
  if acc.lastRoot ≠ none ∧ acc.lastRoot ≠ some t.input_root_path then
    .error ⟨acc.written, .mismatchRoot⟩
  else if acc.lastCenter ≠ none ∧ acc.lastCenter ≠ some t.processing_center then
    .error ⟨acc.written, .mismatchCenter⟩
  else if k = 0 then .error ⟨acc.written, .zeroDiv⟩
  else
    match (if acc.njobs % k = 0
           then some ⟨t.input_root_path, t.processing_center, []⟩
           else acc.out) with
    | none => .error ⟨acc.written, .unboundLocal⟩
    | some o =>
      let o2 : Manifest := { o with inputFiles := o.inputFiles ++ [t.input_relative_path] }
      if (acc.njobs + 1) % k = 0 then
        .ok ⟨acc.njobs + 1, acc.nfilesW + 1, some t.input_root_path, some t.processing_center,
             some o2, acc.written ++ [(template (acc.nfilesW + 1), o2)]⟩
      else
        .ok ⟨acc.njobs + 1, acc.nfilesW, some t.input_root_path, some t.processing_center,
             some o2, acc.written⟩

/-- The `for` loop over the iterator's tuples. -/
def splitterLoop (template : Nat → String) (k : Nat) :
    SplitAcc → List RefTuple → Except SplitOutcome SplitAcc
  | acc, [] => .ok acc
  | acc, t :: ts =>
    match splitterStep template k acc t with
    | .error o => .error o
    | .ok acc2 => splitterLoop template k acc2 ts

/-- Lines 747-752, the post-loop flush: reading `out['InputFiles']` with `out`
never bound raises `UnboundLocalError`; otherwise a non-empty `out` (which may
be the already-written final full manifest) is written once more. -/
def splitterFinal (template : Nat → String) (acc : SplitAcc) : SplitOutcome :=
  match acc.out with
  | none => ⟨acc.written, .unboundLocal⟩
  | some o =>
    if o.inputFiles.length > 0 then
      ⟨acc.written ++ [(template (acc.nfilesW + 1), o)], .completed⟩
    else ⟨acc.written, .completed⟩

/-- The initial state (lines 698-701). -/
def splitterInit : SplitAcc := ⟨0, 0, none, none, none, []⟩

/-- The whole splitter on a given tuple stream. -/
def splitterRun (tuples : List RefTuple) (template : Nat → String) (k : Nat) : SplitOutcome :=
  match splitterLoop template k splitterInit tuples with
  | .error o => o
  | .ok acc => splitterFinal template acc

/-- How `define_batchprocess_jobs` ends: an exception escaping the iterator's
construction or a mid-loop request (with the manifests already written), or a
splitter outcome. -/
inductive BPResult
  | raised (e : DErr) (written : List (String × Manifest))
  | outcome (o : SplitOutcome)
deriving DecidableEq, Repr

/-- createjobs.py lines 679-752, `define_batchprocess_jobs`, over validated
structured job definitions: construct the iterator (eager first-job load),
then feed its tuples to the splitter. A non-`StopIteration` exception from
the iterator propagates after the already-yielded tuples were processed
(unless the splitter returned first); `StopIteration` ends the loop normally
and the post-loop flush runs. -/
def define_batchprocess_jobs (ls : String → Option (List String))
    (pfx : List (String × String)) (jobs0 : List Job)
    (template : Nat → String) (jobsperfile : Nat) : BPResult :=
  match DASKjobs_init ls pfx jobs0 with
  | .error e => .raised e []
  | .ok st =>
    let p := runDASK ls st
    match splitterLoop template jobsperfile splitterInit p.1 with
    | .error o => .outcome o
    | .ok acc =>
      match p.2 with
      | .stopIteration => .outcome (splitterFinal template acc)
      | e => .raised e acc.written

/-! ## Raw JSON values: DASKjobs input validation and the job-definition
document (createjobs.py lines 536-546 and 563-586) -/

/-- A Python value as produced by `json.load` (and consumed by `json.dump`):
None, bool, int, str, list, dict with string keys. -/
inductive PyVal
  | pnone
  | pbool (b : Bool)
  | pint (n : Int)
  | pstr (s : String)
  | plist (l : List PyVal)
  | pdict (d : List (String × PyVal))

/-- Lines 565-586 of `DASKjobs.__init__`: the four shape checks, in source
order, each raising a `DASKjobsError` whose first argument (returned here as
the first component) is the error kind the caller can branch on. `none` means
validation passed. -/
def DASKjobs_validate : PyVal → Option (String × String)
  | .pdict entries =>
    if ¬ (entries.map Prod.fst).contains "prefixes" then
      some ("InvalidJobDefinitionsKeys", "job_definitions does not have key prefixes")
    else if ¬ (entries.map Prod.fst).contains "jobs" then
      some ("InvalidJobDefinitionsKeys", "job_definitions does not have key jobs")
    else
      match entries.lookup "jobs" with
      | some (.plist l) =>
        if l.isEmpty then
          some ("NoJobDefinitionsJobs", "no jobs in job_definitions jobs")
        else none
      | _ => some ("InvalidJobDefinitionsJobs", "job_definitions jobs is not a list")
  | _ => some ("InvalidJobDefinitions", "job_definitions is not a dictionary")

/-- A Python `None`-or-string (the root entries of `prefixes`). -/
def optStrToPy : Option String → PyVal
  | none => .pnone
  | some s => .pstr s

/-- One job dictionary as serialized by `json.dump` (the source builds the
job dicts with center-dependent key order; `json.load` restores them
key-based, so one fixed order is used here). -/
def jobToPy (j : Job) : PyVal :=
  .pdict [("file_type", .pstr j.file_type),
          ("processing_center", .pstr j.processing_center),
          ("mission", .pstr j.mission),
          ("date", .pstr j.date),
          ("input_relative_dir", .pstr j.input_relative_dir),
          ("nfiles", .pint (Int.ofNat j.nfiles))]

/-- The JSON document form of the `definejobs` return value, as written by
`createjobdefinitionsjson` (lines 536-546) via `json.dump`; modelled at the
JSON-value level, the text rendering being the json library's concern. -/
def jobDefinitionsToPy (d : JobDefinitions) : PyVal :=
  .pdict [("prefixes", .pdict (d.prefixes.map (fun p => (p.1, optStrToPy p.2)))),
          ("jobs", .plist (d.jobs.map jobToPy))]

/-- Reading back a `None`-or-string root entry. -/
def pyToOptStr : PyVal → Option (Option String)
  | .pnone => some none
  | .pstr s => some (some s)
  | _ => none

/-- Reading back one job dictionary (key-based, as any consumer of the parsed
document does). -/
def pyToJob : PyVal → Option Job
  | .pdict e =>
    match e.lookup "file_type", e.lookup "processing_center", e.lookup "mission",
          e.lookup "date", e.lookup "input_relative_dir", e.lookup "nfiles" with
    | some (.pstr ft), some (.pstr pc), some (.pstr ms), some (.pstr dt),
      some (.pstr ird), some (.pint n) =>
      match n.toNat' with
      | some nf => some ⟨ft, pc, ms, dt, ird, nf⟩
      | none => none
    | _, _, _, _, _, _ => none
  | _ => none

/-- Reading back the whole job-definition document. -/
def pyToJobDefinitions : PyVal → Option JobDefinitions
  | .pdict e =>
    match e.lookup "prefixes", e.lookup "jobs" with
    | some (.pdict pe), some (.plist l) =>
      match pe.mapM (fun q => (pyToOptStr q.2).map (fun v => (q.1, v))),
            l.mapM pyToJob with
      | some pfx, some js => some ⟨pfx, js⟩
      | _, _ => none
    | _, _ => none
  | _ => none

/-! ## Concrete example inputs used by counterexamples and witnesses -/

/-- Example registry entry for ucar. -/
def exCenterUcar : CenterReg :=
  ⟨["level1b", "level2a", "level2b", "archiveBucket", "liveupdateBucket"], "buck", "lbuck"⟩

/-- Example archive listing: one UCAR mission alias, one processing version,
one atmPhs day subdirectory whose file listing is empty. -/
def exLs : String → Option (List String) := fun p =>
  if p = "s3://buck/M1" then some ["buck/M1/v1"]
  else if p = "buck/M1/v1" then some ["buck/M1/v1/level1b"]
  else if p = "buck/M1/v1/level1b/2020/032" then
    some ["buck/M1/v1/level1b/2020/032/atmPhs_x"]
  else if p = "buck/M1/v1/level1b/2020/032/atmPhs_x" then some []
  else none

/-- Example environment (ucar only). -/
def exEnv : Env :=
  { reformatters := [("ucar", exCenterUcar)]
    valid_missions_aws := ["m1"]
    ucarMissionsOf := fun _ => ["M1"]
    romsafMissionsOf := fun _ => []
    eumetsatMissionsOf := fun _ => []
    ls := exLs
    isdir := fun _ => false
    listdir := fun _ => [] }

/-- Example arguments: one mission, ucar, level1b, explicit UCAR root. -/
def exArgs : DJArgs :=
  ⟨["m1"], ["ucar"], ["level1b"], some "s3://buck", none, none, none, false, false⟩

/-- February 1, 2020 (day of year 32). -/
def exDates : List DateRec := [⟨2020, 2, 1, 32⟩]

/-- The job `definejobs` produces on the example: the atmPhs day directory
exists but lists zero files, and the UCAR branch still appends it. -/
def exJob0 : Job :=
  ⟨"level1b", "ucar", "m1", "2020-02-01", "M1/v1/level1b/2020/032/atmPhs_x", 0⟩

/-- The example job definitions produced by `definejobs`. -/
def exDefs : JobDefinitions :=
  ⟨[("ucar", some "s3://buck")], [exJob0]⟩

/-- Unfolding lemma for `runDASK` when the request fails. -/
theorem runDASK_error (ls : String → Option (List String)) (st : DState) (e : DErr)
    (h : DASKnext ls st = .error e) : runDASK ls st = ([], e) := by
  conv_lhs => unfold runDASK
  split
  · rename_i e2 heq
    rw [h] at heq
    cases heq
    rfl
  · rename_i t st2 heq
    rw [h] at heq
    cases heq

/-- Unfolding lemma for `runDASK` when the request yields a tuple. -/
theorem runDASK_ok (ls : String → Option (List String)) (st : DState) (t : RefTuple)
    (st' : DState) (h : DASKnext ls st = .ok (t, st')) :
    runDASK ls st = (t :: (runDASK ls st').1, (runDASK ls st').2) := by
  conv_lhs => unfold runDASK
  split
  · rename_i e2 heq
    rw [h] at heq
    cases heq
  · rename_i t2 st2 heq
    rw [h] at heq
    cases heq
    rfl

/-! ## Claim C1 -/

/-- C1: evaluation of the Batch Splitter at the failing input: a homogeneous
stream of exactly 3 tuples with jobsperfile = 3 (n an exact multiple of k).
The in-loop flush writes the full manifest as file `template 1`, and because
`out` is not cleared after a flush, the post-loop `len(out['InputFiles']) > 0`
check sees the already-written full manifest and writes it again as
`template 2`: 2 = n/k + 1 manifests instead of the claimed ceil(n/k) = 1, the
final flush happening although no non-empty partial manifest remained. -/
theorem C1_exact_multiple_double_flush (template : Nat → String) :
    splitterRun
      [⟨"level1b", "ucar", "s3://b", "f1.nc"⟩,
       ⟨"level1b", "ucar", "s3://b", "f2.nc"⟩,
       ⟨"level1b", "ucar", "s3://b", "f3.nc"⟩] template 3 =
      ⟨[(template 1, ⟨"s3://b", "ucar", ["f1.nc", "f2.nc", "f3.nc"]⟩),
        (template 2, ⟨"s3://b", "ucar", ["f1.nc", "f2.nc", "f3.nc"]⟩)],
       .completed⟩ := rfl

/-! ## Claim C8 -/

/-- C8: with jobsperfile = 3 and a homogeneous stream of 7 tuples, the Batch
Splitter writes exactly 3 manifests of sizes 3, 3, 1, holding the relative
paths in stream order, under the filenames obtained by applying the index
template to 1, 2, 3. -/
theorem C8_seven_tuples_three_manifests (template : Nat → String) :
    splitterRun
      [⟨"level1b", "ucar", "s3://b", "f1.nc"⟩,
       ⟨"level1b", "ucar", "s3://b", "f2.nc"⟩,
       ⟨"level1b", "ucar", "s3://b", "f3.nc"⟩,
       ⟨"level1b", "ucar", "s3://b", "f4.nc"⟩,
       ⟨"level1b", "ucar", "s3://b", "f5.nc"⟩,
       ⟨"level1b", "ucar", "s3://b", "f6.nc"⟩,
       ⟨"level1b", "ucar", "s3://b", "f7.nc"⟩] template 3 =
      ⟨[(template 1, ⟨"s3://b", "ucar", ["f1.nc", "f2.nc", "f3.nc"]⟩),
        (template 2, ⟨"s3://b", "ucar", ["f4.nc", "f5.nc", "f6.nc"]⟩),
        (template 3, ⟨"s3://b", "ucar", ["f7.nc"]⟩)],
       .completed⟩ := by
  simp [splitterRun, splitterLoop, splitterStep, splitterInit, splitterFinal]

/-! ## Claim C10 -/

/-- C10: whenever the constructed iterator yields no tuple at all and ends
with StopIteration, `define_batchprocess_jobs` reaches the post-loop flush
with the manifest variable `out` never bound, and the run fails with an
unbound-local-variable error having written no manifest, instead of
completing with zero manifests. -/
theorem C10_zero_tuples_unbound (ls : String → Option (List String))
    (pfx : List (String × String)) (jobs0 : List Job) (template : Nat → String)
    (k : Nat) (st : DState)
    (hinit : DASKjobs_init ls pfx jobs0 = .ok st)
    (hrun : runDASK ls st = ([], .stopIteration)) :
    define_batchprocess_jobs ls pfx jobs0 template k =
      .outcome ⟨[], .unboundLocal⟩ := by
  unfold define_batchprocess_jobs
  rw [hinit]
  simp only [hrun]
  rfl

/-- Example for C10: a single job whose directory lists no files. -/
def exJobE : Job := ⟨"level1b", "ucar", "m1", "2020-02-01", "d1", 0⟩

/-- Example listing that finds directories but no files anywhere. -/
def exLsE : String → Option (List String) := fun _ => some []

/-- Example root map for the iterator examples. -/
def exPfxE : List (String × String) := [("ucar", "s3://buck")]

/-- C10 witness: the concrete single-empty-job run fails with the
unbound-local error. -/
theorem C10_zero_tuples_unbound_witness :
    define_batchprocess_jobs exLsE exPfxE [exJobE] (fun i => toString i) 3 =
      .outcome ⟨[], .unboundLocal⟩ :=
  C10_zero_tuples_unbound exLsE exPfxE [exJobE] (fun i => toString i) 3
    ⟨exPfxE, [exJobE], []⟩ rfl (runDASK_error _ _ _ rfl)

/-! ## Claim C4 -/

/-- Second job for the consecutive-empty-jobs counterexample. -/
def exJobE2 : Job := ⟨"level1b", "ucar", "m1", "2020-02-01", "d2", 0⟩

/-- C4 counterexample: a well-formed two-job set accepted by the iterator
(construction succeeds with an empty first buffer) in which BOTH jobs' file
lists resolve empty. The request that observes the empty buffer discards the
first job and loads the second job's (empty) list, but then `inputfiles[0]`
raises IndexError: the request neither returns the next job's first tuple nor
raises StopIteration, refuting "iteration never fails with any other error on
an empty-file-list job". -/
theorem C4_counterexample_consecutive_empty :
    DASKjobs_init exLsE exPfxE [exJobE, exJobE2] = .ok ⟨exPfxE, [exJobE, exJobE2], []⟩ ∧
    DASKnext exLsE ⟨exPfxE, [exJobE, exJobE2], []⟩ = .error .indexError ∧
    DErr.indexError ≠ DErr.stopIteration :=
  ⟨rfl, rfl, by decide⟩

/-- C4 (amended): on a request with an empty buffer the current job is always
discarded; the request then (a) raises StopIteration when no job remains,
(b) returns the next job's first tuple when that job's file list resolves
non-empty, but (c) fails with IndexError when the next job's file list also
resolves empty. -/
theorem C4_empty_buffer_behavior (ls : String → Option (List String))
    (pfx : List (String × String)) (j j2 : Job) (rest : List Job) :
    (DASKnext ls ⟨pfx, [j], []⟩ = .error .stopIteration) ∧
    (∀ (f : String) (fs : List String) (root : String),
      DASKloadfiles ls pfx j2 = .ok (f :: fs) →
      pfx.lookup j2.processing_center = some root →
      DASKnext ls ⟨pfx, j :: j2 :: rest, []⟩ =
        .ok (⟨j2.file_type, j2.processing_center, root, relPathOf root f⟩,
             ⟨pfx, j2 :: rest, fs⟩)) ∧
    (∀ (root : String),
      pfx.lookup j2.processing_center = some root →
      DASKloadfiles ls pfx j2 = .ok [] →
      DASKnext ls ⟨pfx, j :: j2 :: rest, []⟩ = .error .indexError) := by
  refine ⟨rfl, ?_, ?_⟩
  · intro f fs root hload hroot
    unfold DASKnext
    simp only [hload]
    unfold DASKnextCore
    simp [hroot]
  · intro root hroot hload
    unfold DASKnext
    simp only [hload]
    unfold DASKnextCore
    simp [hroot]

/-- Listing for the C4 witness: the second job's directory holds one file. -/
def exLsE2 : String → Option (List String) := fun p =>
  if p = "s3://buck/d2" then some ["buck/d2/a.nc"] else some []

/-- C4 witness: instantiating the amended theorem at a concrete job set whose
first job resolves empty and whose second resolves to one file. -/
theorem C4_empty_buffer_behavior_witness :
    DASKnext exLsE2 ⟨exPfxE, [exJobE, exJobE2], []⟩ =
      .ok (⟨"level1b", "ucar", "s3://buck", "d2/a.nc"⟩,
           ⟨exPfxE, [exJobE2], []⟩) :=
  (C4_empty_buffer_behavior exLsE2 exPfxE exJobE exJobE2 []).2.1
    "buck/d2/a.nc" [] "s3://buck" rfl rfl

/-! ## Claim C5 -/

/-- With a non-empty accumulator, the level2b loop appends exactly the
`wetPf2`-tailed entries of the remainder. -/
theorem ucar_l2b_go_nonempty (l : List String) :
    ∀ (acc : List String), acc ≠ [] →
      ucar_l2b_go l acc = acc ++ l.filter (fun x => startsWithS (tailOf x) "wetPf2") := by
  induction l with
  | nil => intro acc _; simp [ucar_l2b_go]
  | cons s rest ih =>
    intro acc hne
    obtain ⟨a, as, rfl⟩ := List.exists_cons_of_ne_nil hne
    simp only [ucar_l2b_go]
    by_cases h1 : startsWithS (tailOf s) "wetPf2" = true
    · rw [if_pos h1, ih _ (by simp)]
      simp [h1]
    · rw [if_neg h1]
      have hc : ¬ ((startsWithS (tailOf s) "wetPrf" && (a :: as).isEmpty) = true) := by
        simp
      rw [if_neg hc, ih _ (by simp)]
      simp [h1]

/-- Characterization of the level2b selection started empty: all
`wetPf2`-tailed entries, preceded by the first `wetPrf`-tailed entry when that
one occurs before every `wetPf2`-tailed entry. -/
theorem ucar_l2b_go_nil_eq (l : List String) :
    ucar_l2b_go l [] =
      (match l.find? (fun s => startsWithS (tailOf s) "wetPf2" ||
            startsWithS (tailOf s) "wetPrf") with
       | none => []
       | some s =>
         if startsWithS (tailOf s) "wetPf2" = true
         then l.filter (fun x => startsWithS (tailOf x) "wetPf2")
         else s :: l.filter (fun x => startsWithS (tailOf x) "wetPf2")) := by
  induction l with
  | nil => rfl
  | cons s rest ih =>
    simp only [ucar_l2b_go]
    by_cases h1 : startsWithS (tailOf s) "wetPf2" = true
    · rw [if_pos h1]
      simp only [List.nil_append]
      rw [ucar_l2b_go_nonempty rest [s] (by simp)]
      rw [List.find?_cons_of_pos _ (by simp [h1])]
      simp [h1]
    · rw [if_neg h1]
      by_cases h2 : startsWithS (tailOf s) "wetPrf" = true
      · have hc : (startsWithS (tailOf s) "wetPrf" && ([] : List String).isEmpty) = true := by
          simp [h2]
        rw [if_pos hc]
        simp only [List.nil_append]
        rw [ucar_l2b_go_nonempty rest [s] (by simp)]
        rw [List.find?_cons_of_pos _ (by simp [h1, h2])]
        simp [h1]
      · have hc : ¬ ((startsWithS (tailOf s) "wetPrf" && ([] : List String).isEmpty) = true) := by
          simp [h2]
        rw [if_neg hc]
        rw [List.find?_cons_of_neg _ (by simp [h1, h2])]
        rw [ih]
        have hfil : List.filter (fun x => startsWithS (tailOf x) "wetPf2") (s :: rest) =
            List.filter (fun x => startsWithS (tailOf x) "wetPf2") rest := by
          simp [h1]
        rw [hfil]

/-- C5 counterexample: in a day listing where a `wetPrf` subdirectory
precedes a `wetPf2` subdirectory, the selection is NOT exactly the
`wetPf2`-prefixed entries (the `wetPrf` entry is selected too, so the
selection has two entries and the day is skipped although a unique `wetPf2`
subdirectory exists): the claimed order-independence fails. -/
theorem C5_counterexample_order_dependent :
    ucar_type_subdirs "level2b" ["d/wetPrf_a", "d/wetPf2_b"] =
      ["d/wetPrf_a", "d/wetPf2_b"] ∧
    (["d/wetPrf_a", "d/wetPf2_b"] : List String) ≠ ["d/wetPf2_b"] :=
  ⟨rfl, by decide⟩

/-- C5 (amended): the level2b selection keeps every `wetPf2`-prefixed
subdirectory and additionally the first `wetPrf`-or-`wetPf2` match when that
earliest match is a `wetPrf` entry (so a `wetPrf` entry preceding every
`wetPf2` entry is selected as well; only when no `wetPf2` entry exists at all
is the selection the first `wetPrf` entry alone); and a day/file-type
combination yields a job only when this selection has exactly one entry —
otherwise the UCAR resolver skips it. -/
theorem C5_level2b_selection (subdirs : List String) :
    (ucar_type_subdirs "level2b" subdirs =
      (match subdirs.find? (fun s => startsWithS (tailOf s) "wetPf2" ||
            startsWithS (tailOf s) "wetPrf") with
       | none => []
       | some s =>
         if startsWithS (tailOf s) "wetPf2" = true
         then subdirs.filter (fun x => startsWithS (tailOf x) "wetPf2")
         else s :: subdirs.filter (fun x => startsWithS (tailOf x) "wetPf2"))) ∧
    (∀ (env : Env) (root : String) (d : DateRec) (m : String),
      (ucar_type_subdirs "level2b" subdirs).length ≠ 1 →
      ucar_after_subdirs env root "level2b" d m subdirs = .ok none) := by
  constructor
  · show ucar_l2b_select subdirs = _
    exact ucar_l2b_go_nil_eq subdirs
  · intro env root d m hlen
    unfold ucar_after_subdirs
    rw [if_pos hlen]

/-- C5 witness: the skip clause applied at the two-entry selection of the
counterexample listing. -/
theorem C5_level2b_selection_witness :
    ucar_after_subdirs exEnv "s3://b" "level2b" ⟨2020, 2, 1, 32⟩ "m"
      ["d/wetPrf_a", "d/wetPf2_b"] = .ok none :=
  (C5_level2b_selection ["d/wetPrf_a", "d/wetPf2_b"]).2 exEnv "s3://b"
    ⟨2020, 2, 1, 32⟩ "m" (by decide)

/-! ## Claim C6 -/

/-- C6: whenever some requested processing center, file type or mission fails
the registry membership checks, `definejobs` returns the distinguished
sentinel (Python `1`) rather than raising or a partial job set, and the
result is independent of all three storage-listing collaborators (nothing is
scanned): any replacement of `ls`, `isdir`, `listdir` yields the same
sentinel. -/
theorem C6_validation_sentinel (env : Env) (dates : List DateRec) (args : DJArgs)
    (h : ¬ (args.processing_centers.all
              (fun c => (env.reformatters.map Prod.fst).contains c)) = true
       ∨ ¬ (args.file_types.all
              (fun f => ((env.reformatters.map (fun p => p.2.keys)).flatten).contains f)) = true
       ∨ ¬ (args.missions.all (fun m => env.valid_missions_aws.contains m)) = true) :
    definejobs env dates args = .ok .sentinel ∧
    ∀ (ls2 : String → Option (List String)) (isdir2 : String → Bool)
      (listdir2 : String → List String),
      definejobs { env with ls := ls2, isdir := isdir2, listdir := listdir2 } dates args =
        .ok .sentinel := by
  have main : ∀ (e2 : Env), e2.reformatters = env.reformatters →
      e2.valid_missions_aws = env.valid_missions_aws →
      definejobs e2 dates args = .ok .sentinel := by
    intro e2 hr hv
    unfold definejobs
    rw [hr, hv]
    rcases h with h | h | h
    · rw [if_pos h]
    · by_cases h0 : (args.processing_centers.all
          (fun c => (env.reformatters.map Prod.fst).contains c)) = true
      · rw [if_neg (not_not_intro h0), if_pos h]
      · rw [if_pos h0]
    · by_cases h0 : (args.processing_centers.all
          (fun c => (env.reformatters.map Prod.fst).contains c)) = true
      · rw [if_neg (not_not_intro h0)]
        by_cases h1 : (args.file_types.all
            (fun f => ((env.reformatters.map (fun p => p.2.keys)).flatten).contains f)) = true
        · rw [if_neg (not_not_intro h1), if_pos h]
        · rw [if_pos h1]
      · rw [if_pos h0]
  exact ⟨main env rfl rfl, fun ls2 isdir2 listdir2 => main _ rfl rfl⟩

/-- Arguments with an unknown mission, for the C6 witness. -/
def exArgsBad : DJArgs :=
  ⟨["zz"], ["ucar"], ["level1b"], some "s3://buck", none, none, none, false, false⟩

/-- C6 witness: on the concrete invalid request the sentinel comes back, under
two different listing collaborators. -/
theorem C6_validation_sentinel_witness :
    definejobs exEnv exDates exArgsBad = .ok .sentinel ∧
    definejobs { exEnv with
                 ls := fun _ => none
                 isdir := fun _ => true
                 listdir := fun _ => ["x"] } exDates exArgsBad = .ok .sentinel :=
  ⟨(C6_validation_sentinel exEnv exDates exArgsBad (Or.inr (Or.inr (by decide)))).1,
   (C6_validation_sentinel exEnv exDates exArgsBad (Or.inr (Or.inr (by decide)))).2
     (fun _ => none) (fun _ => true) (fun _ => ["x"])⟩

/-! ## Claim C7 -/

/-- C7: the Job File Iterator's construction-time checks produce a distinct
error kind per cause, in source order: a non-mapping input fails with
InvalidJobDefinitions; a mapping lacking the prefixes or jobs key fails with
InvalidJobDefinitionsKeys; a mapping whose jobs value is not a sequence fails
with InvalidJobDefinitionsJobs; an empty jobs sequence fails with
NoJobDefinitionsJobs; and the four kinds are pairwise distinct. -/
theorem C7_validate_kinds :
    (∀ (jd : PyVal), (∀ e, jd ≠ .pdict e) →
      (DASKjobs_validate jd).map Prod.fst = some "InvalidJobDefinitions") ∧
    (∀ (e : List (String × PyVal)),
      (¬ ((e.map Prod.fst).contains "prefixes" = true) ∨
       ¬ ((e.map Prod.fst).contains "jobs" = true)) →
      (DASKjobs_validate (.pdict e)).map Prod.fst = some "InvalidJobDefinitionsKeys") ∧
    (∀ (e : List (String × PyVal)) (v : PyVal),
      (e.map Prod.fst).contains "prefixes" = true →
      (e.map Prod.fst).contains "jobs" = true →
      e.lookup "jobs" = some v → (∀ l, v ≠ .plist l) →
      (DASKjobs_validate (.pdict e)).map Prod.fst = some "InvalidJobDefinitionsJobs") ∧
    (∀ (e : List (String × PyVal)),
      (e.map Prod.fst).contains "prefixes" = true →
      (e.map Prod.fst).contains "jobs" = true →
      e.lookup "jobs" = some (.plist []) →
      (DASKjobs_validate (.pdict e)).map Prod.fst = some "NoJobDefinitionsJobs") ∧
    (["InvalidJobDefinitions", "InvalidJobDefinitionsKeys",
      "InvalidJobDefinitionsJobs", "NoJobDefinitionsJobs"] : List String).Pairwise (· ≠ ·) := by
  refine ⟨?_, ?_, ?_, ?_, by decide⟩
  · intro jd hnd
    cases jd with
    | pdict e => exact absurd rfl (hnd e)
    | pnone => rfl
    | pbool b => rfl
    | pint n => rfl
    | pstr s => rfl
    | plist l => rfl
  · intro e h
    simp only [DASKjobs_validate]
    by_cases h0 : (e.map Prod.fst).contains "prefixes" = true
    · rcases h with h | h
      · exact absurd h0 h
      · rw [if_neg (not_not_intro h0), if_pos h]
        rfl
    · rw [if_pos h0]
      rfl
  · intro e v h1 h2 hlook hnl
    simp only [DASKjobs_validate]
    rw [if_neg (not_not_intro h1), if_neg (not_not_intro h2), hlook]
    cases v with
    | plist l => exact absurd rfl (hnl l)
    | pnone => rfl
    | pbool b => rfl
    | pint n => rfl
    | pstr s => rfl
    | pdict d2 => rfl
  · intro e h1 h2 hlook
    simp only [DASKjobs_validate]
    rw [if_neg (not_not_intro h1), if_neg (not_not_intro h2), hlook]
    rfl

/-- C7 witness: the four causes instantiated concretely, each mapped to its
kind by the theorem. -/
theorem C7_validate_kinds_witness :
    (DASKjobs_validate (.pint 1)).map Prod.fst = some "InvalidJobDefinitions" ∧
    (DASKjobs_validate (.pdict [])).map Prod.fst = some "InvalidJobDefinitionsKeys" ∧
    (DASKjobs_validate (.pdict [("prefixes", .pdict []), ("jobs", .pint 0)])).map Prod.fst =
      some "InvalidJobDefinitionsJobs" ∧
    (DASKjobs_validate (.pdict [("prefixes", .pdict []), ("jobs", .plist [])])).map Prod.fst =
      some "NoJobDefinitionsJobs" :=
  ⟨C7_validate_kinds.1 (.pint 1) (fun e h => PyVal.noConfusion h),
   C7_validate_kinds.2.1 [] (Or.inl (by decide)),
   C7_validate_kinds.2.2.1 [("prefixes", .pdict []), ("jobs", .pint 0)] (.pint 0)
     rfl rfl rfl (fun l h => PyVal.noConfusion h),
   C7_validate_kinds.2.2.2.1 [("prefixes", .pdict []), ("jobs", .plist [])]
     rfl rfl rfl⟩

/-! ## Claim C9 -/

/-- Mapping then traversing with an inverse yields the original list. -/
theorem mapM_inverts {α β : Type} (f : α → β) (g : β → Option α)
    (h : ∀ a, g (f a) = some a) : ∀ (l : List α), (l.map f).mapM g = some l := by
  intro l
  induction l with
  | nil => rfl
  | cons a as ih =>
    rw [List.map_cons, List.mapM_cons, h a, ih]
    rfl

/-- Round trip of one root entry. -/
theorem pyToOptStr_inv (o : Option String) : pyToOptStr (optStrToPy o) = some o := by
  cases o <;> rfl

/-- Round trip of the whole job-definition document at the JSON-value level. -/
theorem pyToJobDefinitions_inv (d : JobDefinitions) :
    pyToJobDefinitions (jobDefinitionsToPy d) = some d := by
  have h1 : (d.prefixes.map (fun p => (p.1, optStrToPy p.2))).mapM
      (fun q => (pyToOptStr q.2).map (fun v => (q.1, v))) = some d.prefixes := by
    apply mapM_inverts
    intro a
    cases a with
    | mk k v => cases v <;> rfl
  have h2 : (d.jobs.map jobToPy).mapM pyToJob = some d.jobs :=
    mapM_inverts jobToPy pyToJob (fun j => rfl) d.jobs
  show (match (d.prefixes.map (fun p => (p.1, optStrToPy p.2))).mapM
          (fun q => (pyToOptStr q.2).map (fun v => (q.1, v))),
        (d.jobs.map jobToPy).mapM pyToJob with
      | some pfx, some js => some (⟨pfx, js⟩ : JobDefinitions)
      | _, _ => none) = some d
  rw [h1, h2]

/-- C9: any job-definition dictionary produced by `definejobs`, serialized to
its JSON document form (as `createjobdefinitionsjson` does via json.dump) and
parsed back, reconstructs a structure equal to the original: same prefixes
mapping and same job sequence, every field identical, order preserved. -/
theorem C9_roundtrip (env : Env) (dates : List DateRec) (args : DJArgs)
    (d : JobDefinitions) (_h : definejobs env dates args = .ok (.defs d)) :
    pyToJobDefinitions (jobDefinitionsToPy d) = some d :=
  pyToJobDefinitions_inv d

/-- C9 witness: the round trip on the concrete `definejobs` output. -/
theorem C9_roundtrip_witness :
    pyToJobDefinitions (jobDefinitionsToPy exDefs) = some exDefs :=
  C9_roundtrip exEnv exDates exArgs exDefs rfl

/-! ## Claim C2 -/

/-- Invariant of the splitter loop while it consumes tuples of a single
(root, center) family: the `last_*` trackers hold that family (or are still
unset), every written manifest and the manifest in progress carry it, and
`out` can be unbound only at a batch boundary. -/
def splitInv (r c : String) (k : Nat) (acc : SplitAcc) : Prop :=
  (acc.lastRoot = none ∨ acc.lastRoot = some r) ∧
  (acc.lastCenter = none ∨ acc.lastCenter = some c) ∧
  (∀ p ∈ acc.written, p.2.inputRoot = r ∧ p.2.center = c) ∧
  (∀ o, acc.out = some o → o.inputRoot = r ∧ o.center = c) ∧
  (acc.out = none → acc.njobs % k = 0)

/-- One splitter step on an in-family tuple succeeds and preserves the
invariant, setting the trackers to the family. -/
theorem splitterStep_fam (template : Nat → String) (k : Nat) (r c : String)
    (acc : SplitAcc) (t : RefTuple)
    (hk : ¬ k = 0) (hr : t.input_root_path = r) (hc : t.processing_center = c)
    (hinv : splitInv r c k acc) :
    ∃ acc2, splitterStep template k acc t = .ok acc2 ∧ splitInv r c k acc2 ∧
      acc2.lastRoot = some r ∧ acc2.lastCenter = some c := by
  subst hr
  subst hc
  obtain ⟨h1, h2, h3, h4, h5⟩ := hinv
  have c1 : ¬ (acc.lastRoot ≠ none ∧ acc.lastRoot ≠ some t.input_root_path) := by
    rcases h1 with h | h
    · exact fun hh => hh.1 h
    · exact fun hh => hh.2 h
  have c2 : ¬ (acc.lastCenter ≠ none ∧ acc.lastCenter ≠ some t.processing_center) := by
    rcases h2 with h | h
    · exact fun hh => hh.1 h
    · exact fun hh => hh.2 h
  unfold splitterStep
  rw [if_neg c1, if_neg c2, if_neg hk]
  split
  · rename_i heq
    exfalso
    by_cases hb : acc.njobs % k = 0
    · rw [if_pos hb] at heq
      cases heq
    · rw [if_neg hb] at heq
      exact hb (h5 heq)
  · rename_i o heq
    have hofam : o.inputRoot = t.input_root_path ∧ o.center = t.processing_center := by
      by_cases hb : acc.njobs % k = 0
      · rw [if_pos hb] at heq
        cases heq
        exact ⟨rfl, rfl⟩
      · rw [if_neg hb] at heq
        exact h4 o heq
    split
    · refine ⟨_, rfl, ⟨Or.inr rfl, Or.inr rfl, ?_, ?_, ?_⟩, rfl, rfl⟩
      · intro p hp
        rcases List.mem_append.mp hp with hp | hp
        · exact h3 p hp
        · rcases List.mem_singleton.mp hp with rfl
          exact hofam
      · intro o2 ho2
        cases ho2
        exact hofam
      · intro hnone
        cases hnone
    · refine ⟨_, rfl, ⟨Or.inr rfl, Or.inr rfl, h3, ?_, ?_⟩, rfl, rfl⟩
      · intro o2 ho2
        cases ho2
        exact hofam
      · intro hnone
        cases hnone

/-- Running the splitter loop over an in-family stream succeeds, preserves
the invariant, leaves the state unchanged on an empty stream, and points the
trackers at the family on a non-empty one. -/
theorem splitterLoop_fam (template : Nat → String) (k : Nat) (r c : String)
    (hk : ¬ k = 0) :
    ∀ (ts : List RefTuple) (acc : SplitAcc),
      (∀ t ∈ ts, t.input_root_path = r ∧ t.processing_center = c) →
      splitInv r c k acc →
      ∃ acc2, splitterLoop template k acc ts = .ok acc2 ∧ splitInv r c k acc2 ∧
        (ts ≠ [] → acc2.lastRoot = some r ∧ acc2.lastCenter = some c) ∧
        (ts = [] → acc2 = acc) := by
  intro ts
  induction ts with
  | nil =>
    intro acc hall hinv
    exact ⟨acc, rfl, hinv, fun h => absurd rfl h, fun _ => rfl⟩
  | cons t ts ih =>
    intro acc hall hinv
    obtain ⟨acc1, hstep, hinv1, hl1, hc1⟩ :=
      splitterStep_fam template k r c acc t hk (hall t (by simp)).1 (hall t (by simp)).2 hinv
    obtain ⟨acc2, hloop, hinv2, hne2, heq2⟩ :=
      ih acc1 (fun x hx => hall x (by simp [hx])) hinv1
    refine ⟨acc2, ?_, hinv2, fun _ => ?_, fun h => absurd h (by simp)⟩
    · simp only [splitterLoop, hstep]
      exact hloop
    · by_cases hts : ts = []
      · rw [heq2 hts]
        exact ⟨hl1, hc1⟩
      · exact hne2 hts

/-- The splitter loop distributes over append. -/
theorem splitterLoop_append (template : Nat → String) (k : Nat) :
    ∀ (xs ys : List RefTuple) (acc : SplitAcc),
      splitterLoop template k acc (xs ++ ys) =
        (match splitterLoop template k acc xs with
         | .error o => .error o
         | .ok acc1 => splitterLoop template k acc1 ys) := by
  intro xs
  induction xs with
  | nil => intro ys acc; rfl
  | cons x xs ih =>
    intro ys acc
    simp only [List.cons_append, splitterLoop]
    cases hs : splitterStep template k acc x with
    | error o => rfl
    | ok acc1 => exact ih ys acc1

/-- C2: on any stream whose first family violation is the tuple `v` (every
earlier tuple shares one root `r` and one center `c`, and `v` differs in root
or center), the splitter aborts at `v` with the matching mismatch status
before `v` is placed anywhere: what is on storage is exactly what the loop
had flushed for the homogeneous prefix (no rollback), and every one of those
manifests carries the single family (r, c) — no mixed manifest exists. -/
theorem C2_mismatch_abort (template : Nat → String) (k : Nat)
    (pre : List RefTuple) (v : RefTuple) (rest : List RefTuple) (r c : String)
    (hk : 0 < k) (hne : pre ≠ [])
    (hhom : ∀ t ∈ pre, t.input_root_path = r ∧ t.processing_center = c)
    (hv : v.input_root_path ≠ r ∨ v.processing_center ≠ c) :
    ∃ acc, splitterLoop template k splitterInit pre = .ok acc ∧
      splitterRun (pre ++ v :: rest) template k =
        ⟨acc.written,
         if v.input_root_path ≠ r then SplitStatus.mismatchRoot
         else SplitStatus.mismatchCenter⟩ ∧
      (∀ p ∈ acc.written, p.2.inputRoot = r ∧ p.2.center = c) := by
  have hk0 : ¬ k = 0 := Nat.pos_iff_ne_zero.mp hk
  have hinv0 : splitInv r c k splitterInit := by
    refine ⟨Or.inl rfl, Or.inl rfl, ?_, ?_, ?_⟩
    · intro p hp
      simp [splitterInit] at hp
    · intro o ho
      simp [splitterInit] at ho
    · intro _
      simp [splitterInit]
  obtain ⟨acc, hloop, hinv, hlast, -⟩ :=
    splitterLoop_fam template k r c hk0 pre splitterInit hhom hinv0
  obtain ⟨hlr, hlc⟩ := hlast hne
  have hstepv : splitterStep template k acc v =
      .error ⟨acc.written,
        if v.input_root_path ≠ r then SplitStatus.mismatchRoot
        else SplitStatus.mismatchCenter⟩ := by
    unfold splitterStep
    by_cases hvr : v.input_root_path ≠ r
    · rw [if_pos ⟨by rw [hlr]; exact fun hh => Option.noConfusion hh,
               by rw [hlr]; intro hh; exact hvr (Option.some.inj hh).symm⟩]
      rw [if_pos hvr]
    · have hveq : v.input_root_path = r := not_not.mp hvr
      have hvc : v.processing_center ≠ c := by
        rcases hv with h | h
        · exact absurd hveq h
        · exact h
      rw [if_neg (by rw [hlr, hveq]; exact fun hh => hh.2 rfl)]
      rw [if_pos ⟨by rw [hlc]; exact fun hh => Option.noConfusion hh,
               by rw [hlc]; intro hh; exact hvc (Option.some.inj hh).symm⟩]
      rw [if_neg hvr]
  refine ⟨acc, hloop, ?_, hinv.2.2.1⟩
  unfold splitterRun
  rw [splitterLoop_append, hloop]
  simp only [splitterLoop, hstepv]

/-- C2 witness: a concrete two-tuple stream whose second tuple changes the
processing center aborts with the center-mismatch status, keeping the
(empty, since k = 2 was not reached) flushed set homogeneous. -/
theorem C2_mismatch_abort_witness :
    ∃ acc, splitterLoop (fun i => toString i) 2 splitterInit
        [⟨"level1b", "ucar", "s3://b", "f1.nc"⟩] = .ok acc ∧
      splitterRun
        [⟨"level1b", "ucar", "s3://b", "f1.nc"⟩,
         ⟨"level1b", "jpl", "s3://b", "f2.nc"⟩] (fun i => toString i) 2 =
        ⟨acc.written,
         if ("s3://b" : String) ≠ "s3://b" then SplitStatus.mismatchRoot
         else SplitStatus.mismatchCenter⟩ ∧
      (∀ p ∈ acc.written, p.2.inputRoot = "s3://b" ∧ p.2.center = "ucar") :=
  C2_mismatch_abort (fun i => toString i) 2
    [⟨"level1b", "ucar", "s3://b", "f1.nc"⟩]
    ⟨"level1b", "jpl", "s3://b", "f2.nc"⟩ [] "s3://b" "ucar"
    (by decide) (by decide) (by decide) (Or.inr (by decide))

/-! ## Claim C3 -/

/-- The property claimed of every appended job, restricted to where it holds:
a ROM-SAF or JPL job carries a strictly positive file count. -/
def centerNfilesOK (j : Job) : Bool :=
  if j.processing_center = "romsaf" ∨ j.processing_center = "jpl" then
    decide (0 < j.nfiles)
  else true

/-- Appending one good job preserves goodness of the job list. -/
theorem pushJob_all (st : DJState) (j : Job)
    (hst : st.jobs.all centerNfilesOK = true) (hj : centerNfilesOK j = true) :
    (pushJob st j).jobs.all centerNfilesOK = true := by
  simp [pushJob, List.all_append, hst, hj]

/-- A job found by the UCAR day scan carries center "ucar" (its count may be
zero), so it satisfies `centerNfilesOK` vacuously. -/
theorem ucar_after_subdirs_fam (env : Env) (root ft : String) (d : DateRec) (m : String)
    (subdirs : List String) (j : Job)
    (h : ucar_after_subdirs env root ft d m subdirs = .ok (some j)) :
    centerNfilesOK j = true := by
  simp only [ucar_after_subdirs] at h
  split at h
  · simp at h
  · split at h
    · simp at h
    · split at h
      · simp at h
      · simp only [Except.ok.injEq, Option.some.injEq] at h
        subst h
        simp [centerNfilesOK]

/-- The UCAR processing-version loop preserves job goodness. -/
theorem ucar_pv_loop_all (env : Env) (root ft : String) (d : DateRec) (m : String) :
    ∀ (pvs : List String) (st st' : DJState),
      ucar_pv_loop env root ft d m pvs st = .ok st' →
      st.jobs.all centerNfilesOK = true → st'.jobs.all centerNfilesOK = true := by
  intro pvs
  induction pvs with
  | nil =>
    intro st st' h hst
    simp only [ucar_pv_loop] at h
    cases h
    exact hst
  | cons pv rest ih =>
    intro st st' h hst
    simp only [ucar_pv_loop] at h
    repeat' split at h
    all_goals
      first
      | exact ih _ _ h hst
      | (rename_i j heq
         cases h
         exact pushJob_all _ _ hst (ucar_after_subdirs_fam _ _ _ _ _ _ _ heq))
      | (cases h; exact hst)
      | cases h

/-- The UCAR mission-alias loop preserves job goodness. -/
theorem ucar_um_loop_all (env : Env) (root ft : String) (d : DateRec) (m : String) :
    ∀ (ums : List String) (st st' : DJState),
      ucar_um_loop env root ft d m ums st = .ok st' →
      st.jobs.all centerNfilesOK = true → st'.jobs.all centerNfilesOK = true := by
  intro ums
  induction ums with
  | nil =>
    intro st st' h hst
    simp only [ucar_um_loop] at h
    cases h
    exact hst
  | cons um rest ih =>
    intro st st' h hst
    simp only [ucar_um_loop] at h
    repeat' split at h
    all_goals
      first
      | exact ih _ _ h hst
      | (rename_i st1 heq
         exact ih _ _ h (ucar_pv_loop_all _ _ _ _ _ _ _ _ heq hst))
      | (cases h; exact hst)
      | cases h

/-- The UCAR file-type loop preserves job goodness. -/
theorem ucar_ft_loop_all (env : Env) (root : String) (d : DateRec) (m : String) :
    ∀ (fts : List String) (st st' : DJState),
      ucar_ft_loop env root d m fts st = .ok st' →
      st.jobs.all centerNfilesOK = true → st'.jobs.all centerNfilesOK = true := by
  intro fts
  induction fts with
  | nil =>
    intro st st' h hst
    simp only [ucar_ft_loop] at h
    cases h
    exact hst
  | cons ft rest ih =>
    intro st st' h hst
    simp only [ucar_ft_loop] at h
    repeat' split at h
    all_goals
      first
      | (rename_i st1 heq
         exact ih _ _ h (ucar_um_loop_all _ _ _ _ _ _ _ _ heq hst))
      | (cases h; exact hst)
      | cases h

/-- The UCAR branch preserves job goodness. -/
theorem ucar_branch_all (env : Env) (args : DJArgs) (d : DateRec) (m : String)
    (st st' : DJState) (h : ucar_branch env args d m st = .ok st')
    (hst : st.jobs.all centerNfilesOK = true) : st'.jobs.all centerNfilesOK = true := by
  simp only [ucar_branch] at h
  repeat' split at h
  all_goals
    first
    | exact ucar_ft_loop_all _ _ _ _ _ _ _ h hst
    | (cases h; exact hst)
    | cases h

/-- The ROM-SAF non-nominal scan appends only jobs with positive counts. -/
theorem romsaf_nonnom_all (env : Env) (root ft : String) (d : DateRec) (m : String)
    (fullpath : String) (st st' : DJState)
    (h : romsaf_nonnom env root ft d m fullpath st = .ok st')
    (hst : st.jobs.all centerNfilesOK = true) : st'.jobs.all centerNfilesOK = true := by
  simp only [romsaf_nonnom] at h
  repeat' split at h
  all_goals
    first
    | (rename_i hlen
       cases h
       exact pushJob_all _ _ hst (by simp [centerNfilesOK, hlen]))
    | (cases h; exact hst)
    | cases h

/-- The ROM-SAF file-type loop preserves job goodness. -/
theorem romsaf_ft_loop_all (env : Env) (root : String) (d : DateRec) (m : String)
    (nonnominal : Bool) :
    ∀ (fts : List String) (st st' : DJState),
      romsaf_ft_loop env root d m nonnominal fts st = .ok st' →
      st.jobs.all centerNfilesOK = true → st'.jobs.all centerNfilesOK = true := by
  intro fts
  induction fts with
  | nil =>
    intro st st' h hst
    simp only [romsaf_ft_loop] at h
    cases h
    exact hst
  | cons ft rest ih =>
    intro st st' h hst
    simp only [romsaf_ft_loop] at h
    split at h
    · exact ih _ _ h hst
    · split at h
      · cases h
      · split at h
        · exact ih _ _ h hst
        · split at h
          · cases h
          · split at h
            · exact ih _ _ h hst
            · by_cases hnn : nonnominal = true
              · rw [if_pos hnn] at h
                split at h
                · cases h
                · rename_i st2 heqnn
                  refine ih _ _ h (romsaf_nonnom_all _ _ _ _ _ _ _ _ heqnn ?_)
                  split
                  · exact pushJob_all _ _ hst (by simp [centerNfilesOK]; omega)
                  · exact hst
              · rw [if_neg hnn] at h
                refine ih _ _ h ?_
                split
                · exact pushJob_all _ _ hst (by simp [centerNfilesOK]; omega)
                · exact hst

/-- The ROM-SAF mission-alias loop preserves job goodness. -/
theorem romsaf_rm_loop_all (env : Env) (root : String) (liveupdate nonnominal : Bool)
    (d : DateRec) (m : String) (fts : List String) :
    ∀ (rms : List String) (st st' : DJState),
      romsaf_rm_loop env root liveupdate nonnominal d m fts rms st = .ok st' →
      st.jobs.all centerNfilesOK = true → st'.jobs.all centerNfilesOK = true := by
  intro rms
  induction rms with
  | nil =>
    intro st st' h hst
    simp only [romsaf_rm_loop] at h
    cases h
    exact hst
  | cons rm rest ih =>
    intro st st' h hst
    simp only [romsaf_rm_loop] at h
    repeat' split at h
    all_goals
      first
      | (rename_i st2 heq
         first
         | exact ih _ _ h (romsaf_ft_loop_all _ _ _ _ _ _ _ _ heq hst)
         | (refine ih _ _ h (romsaf_ft_loop_all _ _ _ _ _ _ _ _ heq ?_)
            split
            all_goals exact hst))
      | (cases h; exact hst)
      | cases h

/-- The ROM-SAF branch preserves job goodness. -/
theorem romsaf_branch_all (env : Env) (args : DJArgs) (d : DateRec) (m : String)
    (st st' : DJState) (h : romsaf_branch env args d m st = .ok st')
    (hst : st.jobs.all centerNfilesOK = true) : st'.jobs.all centerNfilesOK = true := by
  simp only [romsaf_branch] at h
  repeat' split at h
  all_goals
    first
    | exact romsaf_rm_loop_all _ _ _ _ _ _ _ _ _ _ h hst
    | exact romsaf_rm_loop_all _ _ _ _ _ _ _ _ _ _ h.symm hst
    | (cases h; exact hst)
    | cases h
    | cases h.symm

/-- The JPL file-type loop appends only jobs with positive counts. -/
theorem jpl_ft_loop_all (env : Env) (root : String) (d : DateRec) (m : String) :
    ∀ (fts : List String) (st st' : DJState),
      jpl_ft_loop env root d m fts st = .ok st' →
      st.jobs.all centerNfilesOK = true → st'.jobs.all centerNfilesOK = true := by
  intro fts
  induction fts with
  | nil =>
    intro st st' h hst
    simp only [jpl_ft_loop] at h
    cases h
    exact hst
  | cons ft rest ih =>
    intro st st' h hst
    simp only [jpl_ft_loop] at h
    repeat' split at h
    all_goals
      first
      | exact ih _ _ h hst
      | exact ih _ _ h.symm hst
      | exact ih _ _ h (pushJob_all _ _ hst (by simp [centerNfilesOK]; omega))
      | exact ih _ _ h.symm (pushJob_all _ _ hst (by simp [centerNfilesOK]; omega))
      | (cases h; exact hst)
      | cases h
      | cases h.symm

/-- The JPL branch preserves job goodness. -/
theorem jpl_branch_all (env : Env) (args : DJArgs) (d : DateRec) (m : String)
    (st st' : DJState) (b : Bool) (h : jpl_branch env args d m st = .ok (st', b))
    (hst : st.jobs.all centerNfilesOK = true) : st'.jobs.all centerNfilesOK = true := by
  simp only [jpl_branch] at h
  repeat' split at h
  all_goals
    first
    | (rename_i st1 heq
       simp only [Except.ok.injEq, Prod.mk.injEq] at h
       obtain ⟨h1, -⟩ := h
       subst h1
       exact jpl_ft_loop_all _ _ _ _ _ _ _ heq hst)
    | (simp only [Except.ok.injEq, Prod.mk.injEq] at h
       obtain ⟨h1, -⟩ := h
       subst h1
       exact hst)
    | cases h

/-- The EUMETSAT processing-version loop preserves job goodness. -/
theorem eumetsat_pv_loop_all (env : Env) (root ft : String) (d : DateRec) (m : String) :
    ∀ (pvs : List String) (st st' : DJState),
      eumetsat_pv_loop env root ft d m pvs st = .ok st' →
      st.jobs.all centerNfilesOK = true → st'.jobs.all centerNfilesOK = true := by
  intro pvs
  induction pvs with
  | nil =>
    intro st st' h hst
    simp only [eumetsat_pv_loop] at h
    cases h
    exact hst
  | cons pv rest ih =>
    intro st st' h hst
    simp only [eumetsat_pv_loop] at h
    repeat' split at h
    all_goals
      first
      | exact ih _ _ h hst
      | exact ih _ _ h (pushJob_all _ _ hst (by simp [centerNfilesOK]))
      | (cases h; exact hst)
      | cases h

/-- The EUMETSAT mission-alias loop preserves job goodness. -/
theorem eumetsat_em_loop_all (env : Env) (root ft : String) (d : DateRec) (m : String) :
    ∀ (ems : List String) (st st' : DJState),
      eumetsat_em_loop env root ft d m ems st = .ok st' →
      st.jobs.all centerNfilesOK = true → st'.jobs.all centerNfilesOK = true := by
  intro ems
  induction ems with
  | nil =>
    intro st st' h hst
    simp only [eumetsat_em_loop] at h
    cases h
    exact hst
  | cons em rest ih =>
    intro st st' h hst
    simp only [eumetsat_em_loop] at h
    repeat' split at h
    all_goals
      first
      | exact ih _ _ h hst
      | (rename_i st1 heq
         exact ih _ _ h (eumetsat_pv_loop_all _ _ _ _ _ _ _ _ heq hst))
      | (cases h; exact hst)
      | cases h

/-- The EUMETSAT file-type loop preserves job goodness. -/
theorem eumetsat_ft_loop_all (env : Env) (root : String) (d : DateRec) (m : String) :
    ∀ (fts : List String) (st st' : DJState),
      eumetsat_ft_loop env root d m fts st = .ok st' →
      st.jobs.all centerNfilesOK = true → st'.jobs.all centerNfilesOK = true := by
  intro fts
  induction fts with
  | nil =>
    intro st st' h hst
    simp only [eumetsat_ft_loop] at h
    cases h
    exact hst
  | cons ft rest ih =>
    intro st st' h hst
    simp only [eumetsat_ft_loop] at h
    repeat' split at h
    all_goals
      first
      | (rename_i st2 heq
         exact ih _ _ h (eumetsat_em_loop_all _ _ _ _ _ _ _ _ heq hst))
      | (cases h; exact hst)
      | cases h

/-- The EUMETSAT branch preserves job goodness. -/
theorem eumetsat_branch_all (env : Env) (args : DJArgs) (d : DateRec) (m : String)
    (st st' : DJState) (b : Bool) (h : eumetsat_branch env args d m st = .ok (st', b))
    (hst : st.jobs.all centerNfilesOK = true) : st'.jobs.all centerNfilesOK = true := by
  simp only [eumetsat_branch] at h
  repeat' split at h
  all_goals
    first
    | (rename_i st1 heq
       simp only [Except.ok.injEq, Prod.mk.injEq] at h
       obtain ⟨h1, -⟩ := h
       subst h1
       exact eumetsat_ft_loop_all _ _ _ _ _ _ _ heq hst)
    | (simp only [Except.ok.injEq, Prod.mk.injEq] at h
       obtain ⟨h1, -⟩ := h
       subst h1
       exact hst)
    | cases h

/-- One mission-loop body (the four branches in order) preserves job
goodness. -/
theorem mission_body_all (env : Env) (args : DJArgs) (d : DateRec) (m : String)
    (st st' : DJState) (b : Bool) (h : mission_body env args d m st = .ok (st', b))
    (hst : st.jobs.all centerNfilesOK = true) : st'.jobs.all centerNfilesOK = true := by
  simp only [mission_body] at h
  split at h
  · cases h
  · rename_i st1 heq1
    have h1 := ucar_branch_all _ _ _ _ _ _ heq1 hst
    split at h
    · cases h
    · rename_i st2 heq2
      have h2 := romsaf_branch_all _ _ _ _ _ _ heq2 h1
      split at h
      · cases h
      · rename_i st3 b3 heq3
        have h3 := jpl_branch_all _ _ _ _ _ _ _ heq3 h2
        split at h
        · simp only [Except.ok.injEq, Prod.mk.injEq] at h
          obtain ⟨h4, -⟩ := h
          subst h4
          exact h3
        · exact eumetsat_branch_all _ _ _ _ _ _ _ h h3

/-- The mission loop of one date preserves job goodness. -/
theorem mission_loop_all (env : Env) (args : DJArgs) (d : DateRec) :
    ∀ (ms : List String) (st st' : DJState),
      mission_loop env args d ms st = .ok st' →
      st.jobs.all centerNfilesOK = true → st'.jobs.all centerNfilesOK = true := by
  intro ms
  induction ms with
  | nil =>
    intro st st' h hst
    simp only [mission_loop] at h
    cases h
    exact hst
  | cons m ms ih =>
    intro st st' h hst
    simp only [mission_loop] at h
    split at h
    · cases h
    · rename_i st1 b heq
      have h1 := mission_body_all _ _ _ _ _ _ _ heq hst
      split at h
      · cases h
        exact h1
      · exact ih _ _ h h1

/-- The date loop preserves job goodness. -/
theorem date_loop_all (env : Env) (args : DJArgs) :
    ∀ (dates : List DateRec) (st st' : DJState),
      date_loop env args dates st = .ok st' →
      st.jobs.all centerNfilesOK = true → st'.jobs.all centerNfilesOK = true := by
  intro dates
  induction dates with
  | nil =>
    intro st st' h hst
    simp only [date_loop] at h
    cases h
    exact hst
  | cons d ds ih =>
    intro st st' h hst
    simp only [date_loop] at h
    split at h
    · cases h
    · rename_i st1 heq
      exact ih _ _ h (mission_loop_all _ _ _ _ _ _ heq hst)

/-- C3 counterexample: a concrete run in which the UCAR branch resolves a
unique atmPhs day subdirectory whose listing succeeds with zero files, and a
JobDescriptor with nfiles = 0 is appended anyway — refuting "a JobDescriptor
is appended only when the number of files found is strictly greater than
zero; a resolved directory with zero files yields no job" for the UCAR
branch. -/
theorem C3_counterexample_zero_file_job :
    definejobs exEnv exDates exArgs = .ok (.defs exDefs) ∧
    exDefs.jobs = [exJob0] ∧ exJob0.processing_center = "ucar" ∧ exJob0.nfiles = 0 :=
  ⟨rfl, rfl, rfl, rfl⟩

/-- C3 (amended): the ROM-SAF and JPL branches of `definejobs` append a
JobDescriptor only when the number of matching files found is strictly
positive — in every job set `definejobs` returns, every job whose center is
"romsaf" or "jpl" has nfiles > 0 (first conjunct). The UCAR and EUMETSAT
branches have no such guard: universally, whenever the UCAR day scan resolves
a singleton type-subdirectory selection whose relative-path extraction and
file listing succeed, the scan yields the job with nfiles equal to the
listing's length, whatever that length — zero included (second conjunct) —
and the processing-version loop appends exactly that job (third conjunct);
likewise the EUMETSAT processing-version loop appends a job with nfiles equal
to the length of whatever listing its singleton day subdirectory yields, zero
included (fourth conjunct). -/
theorem C3_append_conditions :
    (∀ (env : Env) (dates : List DateRec) (args : DJArgs) (d : JobDefinitions),
      definejobs env dates args = .ok (.defs d) →
      d.jobs.all centerNfilesOK = true) ∧
    (∀ (env : Env) (root ft : String) (d : DateRec) (m : String)
       (subdirs : List String) (path : String) (filepaths : List String),
      (ucar_type_subdirs ft subdirs).length = 1 →
      searchGroup1 (root.drop 5) ((ucar_type_subdirs ft subdirs).headD "") = some path →
      env.ls ((ucar_type_subdirs ft subdirs).headD "") = some filepaths →
      ucar_after_subdirs env root ft d m subdirs =
        .ok (some ⟨ft, "ucar", m, dateISO d, path, filepaths.length⟩)) ∧
    (∀ (env : Env) (root ft : String) (d : DateRec) (m : String) (pv : String)
       (rest : List String) (st : DJState) (first0 : String) (tail0 : List String)
       (lv : String) (subdirs : List String) (j : Job),
      env.ls pv = some (first0 :: tail0) →
      strContains (tailOf first0) "level" = true →
      st.levelVar = some lv →
      env.ls (pjoin (pjoin (pjoin pv lv) (year4 d.year)) (z3 d.doy)) = some subdirs →
      ucar_after_subdirs env root ft d m subdirs = .ok (some j) →
      ucar_pv_loop env root ft d m (pv :: rest) st = .ok (pushJob st j)) ∧
    (∀ (env : Env) (root ft : String) (d : DateRec) (m : String) (pv : String)
       (pvs : List String) (st : DJState) (lv sub path : String)
       (filepaths : List String),
      st.levelVar = some lv →
      env.ls (pjoin (pjoin (pjoin pv lv) (year4 d.year)) (z3 d.doy)) = some [sub] →
      searchGroup1 (root.drop 5) sub = some path →
      env.ls sub = some filepaths →
      eumetsat_pv_loop env root ft d m (pv :: pvs) st =
        eumetsat_pv_loop env root ft d m pvs
          (pushJob st ⟨ft, "eumetsat", m, dateISO d, path, filepaths.length⟩)) := by
  refine ⟨?_, ?_, ?_, ?_⟩
  · intro env dates args d h
    simp only [definejobs] at h
    split at h
    · simp at h
    · split at h
      · simp at h
      · split at h
        · simp at h
        · split at h
          · cases h
          · rename_i st heq
            simp only [Except.ok.injEq, DJResult.defs.injEq] at h
            subst h
            exact date_loop_all env args dates _ st heq rfl
  · intro env root ft d m subdirs path filepaths hlen hsg hls
    simp only [ucar_after_subdirs]
    rw [if_neg (not_not_intro hlen)]
    simp only [hsg, hls]
  · intro env root ft d m pv rest st first0 tail0 lv subdirs j hpv hlevel hlv hday hafter
    simp only [ucar_pv_loop, hpv]
    rw [if_neg (not_not_intro hlevel)]
    simp only [hlv, hday, hafter]
  · intro env root ft d m pv pvs st lv sub path filepaths hlv hday hsg hls
    simp only [eumetsat_pv_loop, hlv, hday]
    rw [if_neg (by simp)]
    simp only [List.headD_cons, hsg, hls]

/-- Example EUMETSAT-shaped listing for the C3 witness: the singleton day
subdirectory lists zero files. -/
def exLsEum : String → Option (List String) := fun p =>
  if p = "eb/E1/v1/level1b/2020/032" then some ["eb/E1/v1/level1b/2020/032/x"]
  else if p = "eb/E1/v1/level1b/2020/032/x" then some []
  else none

/-- Iterator-free UCAR state for the C3 witness (level set to "level1b"). -/
def exStU : DJState := ⟨some "s3://buck", none, none, none, some "level1b", none, none, []⟩

/-- EUMETSAT-side state for the C3 witness. -/
def exStE : DJState := ⟨none, none, none, none, some "level1b", none, none, []⟩

/-- C3 witness: all four universal conjuncts applied at concrete inputs —
the positive-count statement at the example run, and the UCAR day scan, UCAR
processing-version append and EUMETSAT append at zero-file listings, each
producing a job with nfiles = 0. -/
theorem C3_append_conditions_witness :
    exDefs.jobs.all centerNfilesOK = true ∧
    ucar_after_subdirs exEnv "s3://buck" "level1b" ⟨2020, 2, 1, 32⟩ "m1"
        ["buck/M1/v1/level1b/2020/032/atmPhs_x"] =
      .ok (some ⟨"level1b", "ucar", "m1", "2020-02-01",
                 "M1/v1/level1b/2020/032/atmPhs_x", 0⟩) ∧
    ucar_pv_loop exEnv "s3://buck" "level1b" ⟨2020, 2, 1, 32⟩ "m1"
        ["buck/M1/v1"] exStU = .ok (pushJob exStU exJob0) ∧
    eumetsat_pv_loop { exEnv with ls := exLsEum } "s3://eb" "level1b"
        ⟨2020, 2, 1, 32⟩ "m1" ["eb/E1/v1"] exStE =
      eumetsat_pv_loop { exEnv with ls := exLsEum } "s3://eb" "level1b"
        ⟨2020, 2, 1, 32⟩ "m1" []
        (pushJob exStE ⟨"level1b", "eumetsat", "m1", "2020-02-01",
                        "E1/v1/level1b/2020/032/x", 0⟩) :=
  ⟨C3_append_conditions.1 exEnv exDates exArgs exDefs rfl,
   C3_append_conditions.2.1 exEnv "s3://buck" "level1b" ⟨2020, 2, 1, 32⟩ "m1"
     ["buck/M1/v1/level1b/2020/032/atmPhs_x"] "M1/v1/level1b/2020/032/atmPhs_x" []
     rfl rfl rfl,
   C3_append_conditions.2.2.1 exEnv "s3://buck" "level1b" ⟨2020, 2, 1, 32⟩ "m1"
     "buck/M1/v1" [] exStU "buck/M1/v1/level1b" [] "level1b"
     ["buck/M1/v1/level1b/2020/032/atmPhs_x"] exJob0 rfl rfl rfl rfl rfl,
   C3_append_conditions.2.2.2 { exEnv with ls := exLsEum } "s3://eb" "level1b"
     ⟨2020, 2, 1, 32⟩ "m1" "eb/E1/v1" [] exStE "level1b"
     "eb/E1/v1/level1b/2020/032/x" "E1/v1/level1b/2020/032/x" [] rfl rfl rfl rfl⟩
